import Mathlib

/-!
Formal model of the slicer-copilot settings pipeline.

The JavaScript sources are shallowly embedded: JavaScript values are the
inductive `JValue` (numbers as exact rationals, objects as insertion-ordered
association lists), stateful functions become explicit state-passing Lean
functions, and validation failures become `Except`.  Definitions follow the
source files `src/llm/responseValidator.js`, the change-application module
(`applyLlmChanges` and helpers), `src/utils/objectOverrides.js`,
`src/3mf/configMapping.js`, `src/3mf/parser.js` and `src/3mf/writer.js`.

Modelling conventions, stated once:
* JavaScript `undefined` is `Option.none`; `null` is `JValue.null`.
* IEEE-754 doubles are modelled as `ℚ` (the values flowing through this
  program are decimal literals from JSON; `NaN`, `-0` and overflow are not
  modelled).
* `===` on primitives is structural; on objects and arrays it is reference
  equality.  Values compared by `===` in this program always come from
  distinct allocations (the model is `structuredClone`d away from the
  response), so object/array comparison is modelled as `false`; the one
  place where the two sides can be the same reference (the failed-relative
  path of `computeNewValue`, which returns `currentValue` itself) is
  modelled explicitly at its call sites.
* Warning messages are produced through an injected i18n translator that
  lives outside `src/`; warnings are therefore modelled symbolically as the
  translation key together with its interpolation variables.
-/

/-- A JavaScript (JSON-like) runtime value. -/
inductive JValue where
  | num (q : ℚ)
  | str (s : String)
  | bool (b : Bool)
  | null
  | arr (elems : List JValue)
  | obj (fields : List (String × JValue))

/-- A JavaScript object: insertion-ordered fields with unique keys. -/
abbrev JsObj := List (String × JValue)

/-- Property read, `o[k]`; `none` is JavaScript `undefined`. -/
def jsLookup : JsObj → String → Option JValue
  | [], _ => none
  | (k', v) :: rest, k => if k' = k then some v else jsLookup rest k

/-- Property write, `o[k] = v`: updates in place, appends when absent. -/
def jsSet : JsObj → String → JValue → JsObj
  | [], k, v => [(k, v)]
  | (k', v') :: rest, k, v =>
    if k' = k then (k, v) :: rest else (k', v') :: jsSet rest k v

/-- JavaScript truthiness. -/
def jsTruthy : JValue → Bool
  | .num q => q ≠ 0
  | .str s => s ≠ ""
  | .bool b => b
  | .null => false
  | .arr _ => true
  | .obj _ => true

/-- JavaScript strict equality between values of distinct provenance:
structural on primitives, `false` across types, and `false` between
objects/arrays (reference equality of separately built values). -/
def jsStrictEq : JValue → JValue → Bool
  | .num a, .num b => a = b
  | .str a, .str b => a = b
  | .bool a, .bool b => a = b
  | .null, .null => true
  | _, _ => false

/-- Fields obtained by spreading a value into an object literal, as in
`{ ...v }`: objects copy their fields, arrays and strings contribute
index-keyed entries, and primitives contribute nothing. -/
def jsSpreadFields : Option JValue → JsObj
  | some (.obj f) => f
  | some (.arr a) => a.enum.map (fun p => (toString p.1, p.2))
  | some (.str s) => s.toList.enum.map (fun p => (toString p.1, .str (String.mk [p.2])))
  | _ => []

/-! ### Character-level string utilities

String-library escape hatches (`startsWith`, `splitOn`, `trim`, `toLower`,
the string order) are re-implemented by structural recursion on character
lists so that concrete runs reduce inside the kernel.  The strings this
program manipulates are ASCII key names and decimal digits, for which these
agree with the JavaScript operations they model. -/

/-- Read a non-empty all-digit character list as a natural number. -/
def charsToNat? (cs : List Char) : Option Nat :=
  if cs.isEmpty then none
  else if cs.all Char.isDigit then
    some (cs.foldl (fun n c => n * 10 + (c.toNat - 48)) 0)
  else none

/-- ASCII lower-casing of one character. -/
def asciiToLower (c : Char) : Char :=
  if 'A' ≤ c ∧ c ≤ 'Z' then Char.ofNat (c.toNat + 32) else c

/-- The whitespace characters recognised when trimming. -/
def isWsChar (c : Char) : Bool :=
  c = ' ' ∨ c = '\t' ∨ c = '\n' ∨ c = '\r'

/-- Trim leading and trailing whitespace. -/
def trimAscii (s : String) : String :=
  String.mk (((s.data.dropWhile isWsChar).reverse.dropWhile isWsChar).reverse)

/-- Split a character list at every occurrence of a separator. -/
def splitOnChar (sep : Char) : List Char → List (List Char)
  | [] => [[]]
  | c :: rest =>
    match splitOnChar sep rest with
    | [] => [[]]
    | g :: gs => if c = sep then [] :: g :: gs else (c :: g) :: gs

/-- Remove the first occurrence of a character (`s.replace(ch, "")` for a
single-character pattern). -/
def removeFirstOcc (sep : Char) : List Char → List Char
  | [] => []
  | c :: rest => if c = sep then rest else c :: removeFirstOcc sep rest

/-- Join strings with a separator. -/
def joinWith (sep : String) : List String → String
  | [] => ""
  | [x] => x
  | x :: rest => x ++ sep ++ joinWith sep rest

/-- Lexicographic comparison of character lists. -/
def charListLe : List Char → List Char → Bool
  | [], _ => true
  | _ :: _, [] => false
  | a :: as, b :: bs => if a < b then true else if a = b then charListLe as bs else false

/-- Lexicographic string order (UTF-16 code-unit comparison of JavaScript
`sort()` restricted to the ASCII keys this program sorts). -/
def strLe (a b : String) : Bool := charListLe a.data b.data

/-! ### Normalized project model (the parts read and written by the change
application engine; fields the engine never touches are omitted). -/

/-- One object on a plate (`plates[i].objects[j]` of the normalized model). -/
structure PlateObject where
  name : String
  settings : Option JsObj

/-- One plate of the normalized project summary. -/
structure Plate where
  index : Int
  name : String
  objects : List PlateObject

/-- The `currentSettings` part of the normalized model. -/
structure CurrentSettings where
  globalProcess : JsObj
  perObjectOverrides : JsObj

/-- The normalized project model, restricted to the fields used by
`applyLlmChanges`. -/
structure NormalizedModel where
  plates : List Plate
  currentSettings : CurrentSettings
  userModifiedSettings : List String

/-- The `target` field of an LLM change. -/
structure ChangeTarget where
  objectName : Option String
  name : Option String
  plateIndex : Option Int

/-- An LLM change as typed by the `LlmChange` typedef of the change module. -/
structure LlmChange where
  scope : Option String
  target : Option ChangeTarget
  parameter : String
  newValue : JValue
  changeType : Option String
  reason : Option String

/-- A validated optimizer response as consumed by `applyLlmChanges`. -/
structure EngineResponse where
  changes : List LlmChange
  warnings : List String

/-- The `target` component of an emitted diff record. -/
structure DiffTarget where
  objectName : String
  plateIndex : Int

/-- A diff record emitted for one successfully applied change. -/
structure DiffRecord where
  scope : String
  target : Option DiffTarget
  parameter : String
  fromValue : JValue
  toValue : JValue
  reason : String

/-- A warning accumulated by the engine, modelled as the i18n key applied to
its interpolation variables (the textual rendering lives outside `src/`). -/
inductive EngineWarning where
  | fromResponse (text : String)
  | userSettingLocked (parameter : String)
  | unknownParameter (parameter : String)
  | objectNotFound (object : String) (parameter : String)
  | unknownObjectParameter (parameter : String) (object : String)
  | relativeNumeric (parameter : String)

/-- State threaded through the per-change loop of `applyLlmChanges`; the
function's result `{ updated, warnings, diffs }` is the final state. -/
structure EngineState where
  updated : NormalizedModel
  warnings : List EngineWarning
  diffs : List DiffRecord

/-! ### `src/utils/objectOverrides.js` -/

/-- Key for the per-object override store. -/
def makeObjectKey (objectName : Option String) (plateIndex : Option Int) : String :=
  let name := objectName.getD "object"
  match plateIndex with
  | none => name
  | some i => toString i ++ "::" ++ name

/-- Ensure an override record exists for the target; returns the (possibly
extended) store together with the record's fields.  A truthy non-object value
already stored under the key is returned as its property view (the source
would return the primitive itself; the parser never stores primitives). -/
def ensureObjectOverride (overrides : JsObj) (objectName : String)
    (plateIndex : Option Int) : JsObj × JsObj :=
  let key := makeObjectKey (some objectName) plateIndex
  match jsLookup overrides key with
  | some (.obj f) => (overrides, f)
  | some v =>
    if jsTruthy v then (overrides, jsSpreadFields (some v))
    else
      let record : JsObj :=
        [("plateIndex", match plateIndex with | some i => .num i | none => .null),
         ("objectName", .str objectName)]
      (jsSet overrides key (.obj record), record)
  | none =>
    let record : JsObj :=
      [("plateIndex", match plateIndex with | some i => .num i | none => .null),
       ("objectName", .str objectName)]
    (jsSet overrides key (.obj record), record)

/-! ### Change application (`applyLlmChanges` and helpers) -/

/-- Parameter names addressing the nested speeds sub-object: a name prefixed
with `speeds.` selects the sub-key up to the next dot. -/
def parseSpeedKey (parameter : String) : Option String :=
  if "speeds.".data.isPrefixOf parameter.data then
    some (String.mk ((parameter.data.drop 7).takeWhile (fun c => c ≠ '.')))
  else none

/-- Read half of `resolveParameter`: the current value for a parameter. -/
def resolveParameterGet (container : JsObj) (parameter : String) : Option JValue :=
  match parseSpeedKey parameter with
  | some k =>
    match jsLookup container "speeds" with
    | some (.obj f) => jsLookup f k
    | some (.arr a) =>
      match charsToNat? k.data with
      | some i => if toString i = k then a.get? i else none
      | none => none
    | _ => none
  | none => jsLookup container parameter

/-- Write half of `resolveParameter`: the setter applied to a value. -/
def resolveParameterSet (container : JsObj) (parameter : String)
    (value : JValue) : JsObj :=
  match parseSpeedKey parameter with
  | some k =>
    let speeds :=
      if jsTruthy ((jsLookup container "speeds").getD .null) then
        jsSpreadFields (jsLookup container "speeds")
      else []
    jsSet container "speeds" (.obj (jsSet speeds k value))
  | none => jsSet container parameter value

/-- Compute the proposed value for a change: `relative` needs both sides
numeric (otherwise it warns and returns the current value itself); any other
change type substitutes `newValue` directly. -/
def computeNewValue (currentValue : JValue) (c : LlmChange) :
    JValue × Option EngineWarning :=
  if c.changeType = some "relative" then
    match currentValue, c.newValue with
    | .num a, .num d => (.num (a + a * d), none)
    | _, _ => (currentValue, some (.relativeNumeric c.parameter))
  else (c.newValue, none)

/-- The JS test `proposed === currentValue` guarding the silent skip: when
`computeNewValue` warned it returned `currentValue` itself, so the comparison
is reference-true there even for non-primitive values. -/
def isNoOpChange (r : JValue × Option EngineWarning) (currentValue : JValue) : Bool :=
  r.2.isSome || jsStrictEq r.1 currentValue

/-- The `currentValue === undefined` fallback from the object override to
the global baseline. -/
def orDefined (a b : Option JValue) : Option JValue :=
  match a with
  | none => b
  | some v => some v

/-- Resolve the object name and plate index a change targets. -/
def resolveObjectTarget (c : LlmChange) : String × Option Int :=
  (match c.target with
   | some t => ((t.objectName <|> t.name).getD c.parameter)
   | none => c.parameter,
   c.target.bind (fun t => t.plateIndex))

/-- Index of the first plate that matches the requested plate index (when
given) and contains an object with the requested name. -/
def findPlateIdx (plates : List Plate) (objectName : String)
    (plateIndex : Option Int) : Option Nat :=
  plates.findIdx?
    (fun plate =>
      (match plateIndex with
       | some i => plate.index = i
       | none => true) &&
      plate.objects.any (fun o => o.name = objectName))

/-- Mirror an applied override into the plate-level settings view of the
first object with the given name on the given plate. -/
def syncPlateOverride (plates : List Plate) (pIdx : Nat) (objectName : String)
    (parameter : String) (value : JValue) : List Plate :=
  match plates.get? pIdx with
  | none => plates
  | some plate =>
    match plate.objects.findIdx? (fun o => o.name = objectName) with
    | none => plates
    | some oIdx =>
      match plate.objects.get? oIdx with
      | none => plates
      | some o =>
        plates.set pIdx
          { plate with
            objects := plate.objects.set oIdx
              { o with settings := some (jsSet (o.settings.getD []) parameter value) } }

/-- Build one diff record. -/
def formatDiff (c : LlmChange) (fromValue toValue : JValue) (scope : String)
    (target : Option DiffTarget) : DiffRecord :=
  { scope := scope, target := target, parameter := c.parameter,
    fromValue := fromValue, toValue := toValue, reason := c.reason.getD "" }

/-- Apply one global-scope change. -/
def applyGlobalChange (st : EngineState) (c : LlmChange) : EngineState :=
  let gp := st.updated.currentSettings.globalProcess
  match resolveParameterGet gp c.parameter with
  | none => { st with warnings := st.warnings ++ [.unknownParameter c.parameter] }
  | some currentValue =>
    let r := computeNewValue currentValue c
    let warnings1 := st.warnings ++ r.2.toList
    if isNoOpChange r currentValue then { st with warnings := warnings1 }
    else
      { updated :=
          { st.updated with
            currentSettings :=
              { st.updated.currentSettings with
                globalProcess := resolveParameterSet gp c.parameter r.1 } },
        warnings := warnings1,
        diffs := st.diffs ++ [formatDiff c currentValue r.1 "global" none] }

/-- Apply one object-scope change. -/
def applyObjectChange (st : EngineState) (c : LlmChange) : EngineState :=
  let t := resolveObjectTarget c
  match findPlateIdx st.updated.plates t.1 t.2 with
  | none => { st with warnings := st.warnings ++ [.objectNotFound t.1 c.parameter] }
  | some pIdx =>
    match st.updated.plates.get? pIdx with
    | none => st
    | some plate =>
      let key := makeObjectKey (some t.1) (some plate.index)
      let ensured :=
        ensureObjectOverride st.updated.currentSettings.perObjectOverrides t.1
          (some plate.index)
      let st1 :=
        { st with
          updated :=
            { st.updated with
              currentSettings :=
                { st.updated.currentSettings with perObjectOverrides := ensured.1 } } }
      let gp := st.updated.currentSettings.globalProcess
      let baseValue :=
        orDefined (resolveParameterGet ensured.2 c.parameter)
          (resolveParameterGet gp c.parameter)
      match baseValue with
      | none =>
        { st1 with warnings := st1.warnings ++ [.unknownObjectParameter c.parameter t.1] }
      | some base =>
        let r := computeNewValue base c
        let warnings1 := st.warnings ++ r.2.toList
        if isNoOpChange r base then { st1 with warnings := warnings1 }
        else
          { updated :=
              { st.updated with
                plates := syncPlateOverride st.updated.plates pIdx t.1 c.parameter r.1,
                currentSettings :=
                  { st.updated.currentSettings with
                    perObjectOverrides :=
                      jsSet ensured.1 key
                        (.obj (resolveParameterSet ensured.2 c.parameter r.1)) } },
            warnings := warnings1,
            diffs :=
              st.diffs ++
                [formatDiff c base r.1 "object" (some ⟨t.1, plate.index⟩)] }

/-- Dispatch one change on its scope (any scope other than `global`,
defaulted when absent, takes the object path). -/
def applySingleChange (st : EngineState) (c : LlmChange) : EngineState :=
  if c.scope.getD "global" = "global" then applyGlobalChange st c
  else applyObjectChange st c

/-- Normalize a setting key for fuzzy matching: lower-case, then keep only
ASCII letters and digits. -/
def normalizeSettingKey (s : String) : String :=
  String.mk ((s.data.map asciiToLower).filter
    (fun ch => (decide ('a' ≤ ch) && decide (ch ≤ 'z')) ||
      (decide ('0' ≤ ch) && decide (ch ≤ '9'))))

/-- The raw and normalized lookup sets built from the user-modified
settings list (falsy entries are skipped; membership stands in for `Set`). -/
def buildUserModifiedLookup (userModifiedSettings : List String) :
    List String × List String :=
  let raw := userModifiedSettings.filter (fun e => e ≠ "")
  (raw, raw.map normalizeSettingKey)

/-- Exact or normalized membership of a parameter in the lock lookup. -/
def isUserSettingLocked (parameter : String) (lookup : List String × List String) :
    Bool :=
  if lookup.1.isEmpty then false
  else lookup.1.contains parameter || lookup.2.contains (normalizeSettingKey parameter)

/-- Loop body of `applyLlmChanges`: enforce the user-setting lock, then
dispatch the change. -/
def applyChangeStep (respectUserSettings : Bool) (lookup : List String × List String)
    (st : EngineState) (c : LlmChange) : EngineState :=
  if respectUserSettings && isUserSettingLocked c.parameter lookup then
    { st with warnings := st.warnings ++ [.userSettingLocked c.parameter] }
  else applySingleChange st c

/-- Apply a validated optimizer response onto a normalized model, producing
the updated model, accumulated warnings and applied diffs. -/
def applyLlmChanges (normalized : NormalizedModel) (response : EngineResponse)
    (respectUserSettings : Bool) : EngineState :=
  let lookup := buildUserModifiedLookup normalized.userModifiedSettings
  response.changes.foldl (applyChangeStep respectUserSettings lookup)
    { updated := normalized,
      warnings := response.warnings.map .fromResponse,
      diffs := [] }

/-! ### `src/llm/responseValidator.js` -/

/-- Property read on an arbitrary value: objects look up the field, other
non-null values yield `undefined` for the property names used here.  Reads
on `null` throw and are handled at the call site. -/
def jsGetProp (v : JValue) (k : String) : Option JValue :=
  match v with
  | .obj f => jsLookup f k
  | _ => none

/-- How `parseLlmResponse` can fail: the typed validation error, or the
TypeError raised by reading a property of `null`. -/
inductive VError where
  | invalidLlmResponse
  | typeError

/-- A change after validation (fields other than `scope` are passed through
verbatim; absent `target`, `changeType`, `reason` get their defaults). -/
structure VChange where
  scope : String
  target : JValue
  parameter : JValue
  newValue : JValue
  changeType : JValue
  reason : JValue

/-- The normalized response produced by `parseLlmResponse`. -/
structure VResponse where
  version : JValue
  changes : List VChange
  globalRationale : Option JValue
  warnings : JValue

/-- Validate a single change entry. -/
def validateChange (c : JValue) : Except VError VChange :=
  match c with
  | .null => .error .typeError
  | _ =>
    if ¬ jsTruthy ((jsGetProp c "parameter").getD .null) then
      .error .invalidLlmResponse
    else if (jsGetProp c "newValue").isNone then
      .error .invalidLlmResponse
    else
      let scope :=
        match jsGetProp c "scope" with
        | none => JValue.str "global"
        | some .null => JValue.str "global"
        | some v => v
      match scope with
      | .str s =>
        if s = "global" || s = "object" then
          .ok
          { scope := s,
            target :=
              match jsGetProp c "target" with
              | none => .null
              | some .null => .null
              | some v => v,
            parameter := (jsGetProp c "parameter").getD .null,
            newValue := (jsGetProp c "newValue").getD .null,
            changeType :=
              match jsGetProp c "changeType" with
              | none => .str "absolute"
              | some .null => .str "absolute"
              | some v => v,
            reason :=
              match jsGetProp c "reason" with
              | none => .str ""
              | some .null => .str ""
              | some v => v }
        else .error .invalidLlmResponse
      | _ => .error .invalidLlmResponse

/-- Validate every change entry in order, stopping at the first failure
(the semantics of `changes.map(validateChange)` under thrown exceptions). -/
def validateAllChanges : List JValue → Except VError (List VChange)
  | [] => .ok []
  | c :: rest =>
    match validateChange c with
    | .error e => .error e
    | .ok v =>
      match validateAllChanges rest with
      | .error e => .error e
      | .ok vs => .ok (v :: vs)

/-- Parse and validate an optimizer response that has already been parsed
from JSON (string inputs go through `JSON.parse` first; this function models
the checks applied to the parsed value). -/
def parseLlmResponse (content : JValue) : Except VError VResponse :=
  match content with
  | .obj fields =>
    match jsLookup fields "changes" with
    | some (.arr cs) =>
      match validateAllChanges cs with
      | .error e => .error e
      | .ok validated =>
        .ok
        { version :=
            match jsLookup fields "version" with
            | none => .num 1
            | some .null => .num 1
            | some v => v,
          changes := validated,
          globalRationale := jsLookup fields "globalRationale",
          warnings :=
            match jsLookup fields "warnings" with
            | none => .arr []
            | some .null => .arr []
            | some v => v }
    | _ => .error .invalidLlmResponse
  | _ => .error .invalidLlmResponse

/-- Acceptance condition for a single change entry written out from the
amended claim: the entry is an object with a truthy `parameter`, a present
`newValue`, and a `scope` that is absent, `null`, `"global"` or `"object"`;
`changeType` is not consulted. -/
def changeAcceptedSpec (c : JValue) : Bool :=
  match c with
  | .obj f =>
    jsTruthy ((jsLookup f "parameter").getD .null) &&
    (jsLookup f "newValue").isSome &&
    (match jsLookup f "scope" with
     | none => true
     | some .null => true
     | some (.str s) => s = "global" || s = "object"
     | some _ => false)
  | _ => false

/-- Acceptance condition for a whole response written out from the amended
claim: an object whose `changes` field is an array all of whose entries are
acceptable changes. -/
def responseAcceptedSpec (v : JValue) : Bool :=
  match v with
  | .obj f =>
    match jsLookup f "changes" with
    | some (.arr cs) => cs.all changeAcceptedSpec
    | _ => false
  | _ => false

/-! ### JavaScript number and string coercions

Only the fragments exercised by this program are modelled: decimal literals
with optional sign, fraction and exponent.  `NaN` is `none`; `Infinity`,
hexadecimal literals and the shortest-round-trip float printing of
non-decimal rationals are outside the model (vendor configs store decimal
strings). -/

/-- Value of an unsigned decimal mantissa `digits[.digits]` (either side may
be empty, but not both). -/
def parseMantissa (cs : List Char) : Option ℚ :=
  let intPart := cs.takeWhile Char.isDigit
  let rest := cs.dropWhile Char.isDigit
  match rest with
  | [] =>
    (charsToNat? intPart).map (fun n => (n : ℚ))
  | '.' :: frac =>
    if frac.all Char.isDigit ∧ (intPart ≠ [] ∨ frac ≠ []) then
      some ((intPart.foldl (fun n c => n * 10 + (c.toNat - 48)) 0 : ℚ) +
        (frac.foldl (fun n c => n * 10 + (c.toNat - 48)) 0 : ℚ) / (10 : ℚ) ^ frac.length)
    else none
  | _ => none

/-- Scale a rational by a signed power of ten. -/
def scalePow10 (m : ℚ) (e : Int) : ℚ :=
  if e ≥ 0 then m * (10 : ℚ) ^ e.toNat else m / (10 : ℚ) ^ (-e).toNat

/-- Signed exponent after an `e`/`E`. -/
def parseExponent (cs : List Char) : Option Int :=
  match cs with
  | '+' :: ds => (charsToNat? ds).map (fun n => (n : Int))
  | '-' :: ds => (charsToNat? ds).map (fun n => -(n : Int))
  | ds => (charsToNat? ds).map (fun n => (n : Int))

/-- `Number(string)` coercion: whole-string decimal literal, empty or
whitespace-only strings are `0`, anything else is `NaN` (`none`). -/
def jsStringToNumber (s : String) : Option ℚ :=
  let t := trimAscii s
  if t = "" then some 0
  else
    let parseUnsigned : List Char → Option ℚ := fun cs =>
      let mant := cs.takeWhile (fun c => c ≠ 'e' ∧ c ≠ 'E')
      let rest := cs.dropWhile (fun c => c ≠ 'e' ∧ c ≠ 'E')
      match rest with
      | [] => parseMantissa mant
      | _ :: es => do
        let m ← parseMantissa mant
        let e ← parseExponent es
        some (scalePow10 m e)
    match t.toList with
    | '+' :: cs => parseUnsigned cs
    | '-' :: cs => (parseUnsigned cs).map Neg.neg
    | cs => parseUnsigned cs

/-- `Number.parseFloat`: longest numeric prefix after leading whitespace;
no digits at all gives `NaN` (`none`). -/
def parseFloatPrefix (s : String) : Option ℚ :=
  let cs := s.toList.dropWhile (fun c => c = ' ' ∨ c = '\t' ∨ c = '\n' ∨ c = '\r')
  let signed : Bool × List Char :=
    match cs with
    | '-' :: rest => (true, rest)
    | '+' :: rest => (false, rest)
    | rest => (false, rest)
  let intPart := signed.2.takeWhile Char.isDigit
  let afterInt := signed.2.dropWhile Char.isDigit
  let fracParts : List Char × List Char :=
    match afterInt with
    | '.' :: rest => (rest.takeWhile Char.isDigit, rest.dropWhile Char.isDigit)
    | _ => ([], afterInt)
  if intPart.isEmpty ∧ fracParts.1.isEmpty then none
  else
    let mant : ℚ :=
      (intPart.foldl (fun n c => n * 10 + (c.toNat - 48)) 0 : ℚ) +
        (fracParts.1.foldl (fun n c => n * 10 + (c.toNat - 48)) 0 : ℚ) /
          (10 : ℚ) ^ fracParts.1.length
    let expVal : Int :=
      match fracParts.2 with
      | 'e' :: rest =>
        (match rest with
         | '+' :: ds => ((charsToNat? (ds.takeWhile Char.isDigit)).map Int.ofNat).getD 0
         | '-' :: ds => ((charsToNat? (ds.takeWhile Char.isDigit)).map (fun n => -(n : Int))).getD 0
         | ds => ((charsToNat? (ds.takeWhile Char.isDigit)).map Int.ofNat).getD 0)
      | 'E' :: rest =>
        (match rest with
         | '+' :: ds => ((charsToNat? (ds.takeWhile Char.isDigit)).map Int.ofNat).getD 0
         | '-' :: ds => ((charsToNat? (ds.takeWhile Char.isDigit)).map (fun n => -(n : Int))).getD 0
         | ds => ((charsToNat? (ds.takeWhile Char.isDigit)).map Int.ofNat).getD 0)
      | _ => 0
    some (if signed.1 then -(scalePow10 mant expVal) else scalePow10 mant expVal)

/-- Decimal rendering of a rational whose denominator divides a power of
ten (the numbers this program produces); other denominators fall back to a
fraction rendering that real JavaScript would print differently. -/
def numToString (q : ℚ) : String :=
  if q.den = 1 then toString q.num
  else
    match (List.range 40).find? (fun k => (q * (10 : ℚ) ^ (k + 1)).den = 1) with
    | some k =>
      let a := |q|
      let whole := a.floor.toNat
      let fracNum := (a * (10 : ℚ) ^ (k + 1)).num.toNat - whole * 10 ^ (k + 1)
      let digits := toString fracNum
      let padded :=
        String.mk (List.replicate (k + 1 - digits.length) '0') ++ digits
      (if q < 0 then "-" else "") ++ toString whole ++ "." ++ padded
    | none => toString q.num ++ "/" ++ toString q.den

mutual

/-- `String(v)` / `v.toString()` coercion. -/
def jsToString : JValue → String
  | .num q => numToString q
  | .str s => s
  | .bool b => if b then "true" else "false"
  | .null => "null"
  | .arr a => jsToStringList a
  | .obj _ => "[object Object]"

/-- Array join with `","`; `null` elements render as the empty string. -/
def jsToStringList : List JValue → String
  | [] => ""
  | [e] => jsToStringItem e
  | e :: rest => jsToStringItem e ++ "," ++ jsToStringList rest

/-- One array element inside a join. -/
def jsToStringItem : JValue → String
  | .null => ""
  | v => jsToString v

end

/-- `Number(v)` on an arbitrary value. -/
def jsToNumberValue : JValue → Option ℚ
  | .num q => some q
  | .str s => jsStringToNumber s
  | .bool b => some (if b then 1 else 0)
  | .null => some 0
  | .arr a => jsStringToNumber (jsToString (.arr a))
  | .obj _ => none

/-! ### `src/3mf/configMapping.js` -/

/-- First element of an array value, the value itself otherwise. -/
def firstVal : Option JValue → Option JValue
  | some (.arr a) => a.get? 0
  | v => v

/-- Coerce to number, `none` when missing or `NaN`. -/
def numberOrNull : Option JValue → Option ℚ
  | none => none
  | some .null => none
  | some v => jsToNumberValue v

/-- Convert a percent-like value into a number: stringify, drop the first
`%`, trim, parse the numeric prefix. -/
def percentToNumber : Option JValue → Option ℚ
  | none => none
  | some .null => none
  | some v =>
    let stripped := String.mk (removeFirstOcc '%' (jsToString v).data)
    parseFloatPrefix (trimAscii stripped)

/-- Parse rule `parseNumber`. -/
def parseNumberRule (v : Option JValue) : Option JValue :=
  (numberOrNull (firstVal v)).map .num

/-- Parse rule `parsePercent`. -/
def parsePercentRule (v : Option JValue) : Option JValue :=
  (percentToNumber (firstVal v)).map .num

/-- Parse rule `parseString` (returns the raw first value). -/
def parseStringRule (v : Option JValue) : Option JValue :=
  match firstVal v with
  | none => none
  | some .null => none
  | some raw => some raw

/-- Parse rule `parseSupportFlag`. -/
def parseSupportFlagRule (v : Option JValue) : Option JValue :=
  match firstVal v with
  | none => none
  | some .null => none
  | some raw =>
    some (.bool (jsStrictEq raw (.str "1") || jsStrictEq raw (.num 1) ||
      jsStrictEq raw (.bool true) || jsStrictEq raw (.str "true")))

/-- Serialize rule `passthrough`. -/
def passthroughRule (v : JValue) : Option JValue := some v

/-- Serialize rule `formatPercent`. -/
def formatPercentRule : JValue → Option JValue
  | .null => none
  | v => some (.str (jsToString v ++ "%"))

/-- Serialize rule `formatSupportFlag`. -/
def formatSupportFlagRule : JValue → Option JValue
  | .null => none
  | v => some (.str (if jsTruthy v then "1" else "0"))

/-- One entry of the bidirectional mapping table. -/
structure ConfigMapping where
  configKey : String
  targetKey : String
  shaped : Bool
  parse : Option JValue → Option JValue
  serialize : JValue → Option JValue

/-- The `GLOBAL_PROCESS_MAPPINGS` table, in declaration order. -/
def GLOBAL_PROCESS_MAPPINGS : List ConfigMapping :=
  [⟨"layer_height", "layer_height_mm", true, parseNumberRule, passthroughRule⟩,
   ⟨"initial_layer_print_height", "first_layer_height_mm", true, parseNumberRule, passthroughRule⟩,
   ⟨"wall_loops", "wall_line_count", true, parseNumberRule, passthroughRule⟩,
   ⟨"top_shell_layers", "top_layers", true, parseNumberRule, passthroughRule⟩,
   ⟨"bottom_shell_layers", "bottom_layers", true, parseNumberRule, passthroughRule⟩,
   ⟨"sparse_infill_density", "infill_density_percent", false, parsePercentRule, formatPercentRule⟩,
   ⟨"sparse_infill_pattern", "infill_pattern", false, parseStringRule, passthroughRule⟩,
   ⟨"nozzle_temperature", "nozzle_temp_c", true, parseNumberRule, passthroughRule⟩,
   ⟨"nozzle_temperature_initial_layer", "nozzle_temp_c", true, parseNumberRule, passthroughRule⟩,
   ⟨"eng_plate_temp", "bed_temp_c", true, parseNumberRule, passthroughRule⟩,
   ⟨"hot_plate_temp", "bed_temp_c", true, parseNumberRule, passthroughRule⟩,
   ⟨"fan_max_speed", "fan_speed_percent", true, parseNumberRule, passthroughRule⟩,
   ⟨"first_x_layer_fan_speed", "first_layers_fan_percent", true, parseNumberRule, passthroughRule⟩,
   ⟨"enable_support", "supports_enabled", false, parseSupportFlagRule, formatSupportFlagRule⟩]

/-- The `SPEED_MAPPINGS` table: vendor speed key paired with canonical
speeds sub-key. -/
def SPEED_MAPPINGS : List (String × String) :=
  [("outer_wall_speed", "wall_outer"),
   ("inner_wall_speed", "wall_inner"),
   ("sparse_infill_speed", "infill"),
   ("initial_layer_speed", "first_layer")]

/-- Vendor keys already consumed by the explicit mappings. -/
def CONSUMED_CONFIG_KEYS : List String :=
  GLOBAL_PROCESS_MAPPINGS.map (fun m => m.configKey) ++
    SPEED_MAPPINGS.map (fun m => m.1) ++
    ["raft_layers", "different_settings_to_system"]

/-- The pass-through allow-list `ALLOWED_EXTRA_CONFIG_KEYS`. -/
def ALLOWED_EXTRA_CONFIG_KEYS : List String :=
  ["travel_speed", "bridge_speed", "small_perimeter_speed", "top_surface_speed",
   "gap_infill_speed", "support_speed", "support_interface_speed", "internal_solid_infill_speed",
   "initial_layer_infill_speed", "overhang_1_4_speed", "overhang_2_4_speed", "overhang_3_4_speed",
   "overhang_4_4_speed", "travel_acceleration", "travel_jerk", "outer_wall_acceleration",
   "inner_wall_acceleration", "sparse_infill_acceleration", "initial_layer_acceleration", "top_surface_acceleration",
   "default_acceleration", "default_jerk", "infill_jerk", "inner_wall_jerk",
   "outer_wall_jerk", "initial_layer_jerk", "top_surface_jerk", "overhang_fan_speed",
   "overhang_fan_threshold", "overhang_threshold_participating_cooling", "slow_down_layer_time", "slow_down_min_speed",
   "fan_min_speed", "fan_cooling_layer_time", "full_fan_speed_layer", "close_fan_the_first_x_layers",
   "enable_overhang_bridge_fan", "line_width", "outer_wall_line_width", "inner_wall_line_width",
   "sparse_infill_line_width", "initial_layer_line_width", "internal_solid_infill_line_width", "top_surface_line_width",
   "support_line_width", "wall_sequence", "wall_generator", "detect_thin_wall",
   "detect_overhang_wall", "only_one_wall_first_layer", "min_bead_width", "min_feature_size",
   "wall_distribution_count", "wall_transition_angle", "wall_transition_length", "wall_transition_filter_deviation",
   "precise_outer_wall", "top_surface_pattern", "bottom_surface_pattern", "ironing_type",
   "ironing_speed", "ironing_flow", "ironing_spacing", "ironing_pattern",
   "top_solid_infill_flow_ratio", "top_one_wall_type", "sparse_infill_anchor", "sparse_infill_anchor_max",
   "infill_direction", "infill_wall_overlap", "infill_combination", "minimum_sparse_infill_area",
   "internal_solid_infill_pattern", "filter_out_gap_fill", "support_threshold_angle", "support_style",
   "support_type", "support_top_z_distance", "support_bottom_z_distance", "support_object_xy_distance",
   "support_on_build_plate_only", "support_critical_regions_only", "support_interface_top_layers", "support_interface_bottom_layers",
   "support_interface_spacing", "support_interface_pattern", "support_base_pattern", "support_base_pattern_spacing",
   "support_expansion", "independent_support_layer_height", "tree_support_branch_angle", "tree_support_branch_diameter",
   "tree_support_branch_diameter_angle", "tree_support_branch_distance", "tree_support_wall_count", "brim_width",
   "brim_type", "brim_object_gap", "skirt_distance", "skirt_loops",
   "skirt_height", "raft_layers", "raft_contact_distance", "raft_expansion",
   "raft_first_layer_density", "raft_first_layer_expansion", "z_hop", "z_hop_types",
   "retraction_length", "retraction_speed", "retraction_minimum_travel", "retract_when_changing_layer",
   "wipe", "wipe_distance", "wipe_speed", "retract_before_wipe",
   "deretraction_speed", "filament_flow_ratio", "print_flow_ratio", "initial_layer_flow_ratio",
   "bridge_flow", "filament_max_volumetric_speed", "seam_position", "seam_gap",
   "seam_slope_type", "seam_slope_conditional", "seam_slope_inner_walls", "seam_slope_steps",
   "seam_slope_start_height", "seam_slope_min_length", "xy_hole_compensation", "xy_contour_compensation",
   "elefant_foot_compensation", "resolution", "slice_closing_radius", "spiral_mode",
   "spiral_mode_smooth", "spiral_mode_max_xy_smoothing", "fuzzy_skin", "fuzzy_skin_thickness",
   "fuzzy_skin_point_distance", "thick_bridges", "bridge_no_support", "bridge_angle",
   "max_bridge_length", "internal_bridge_support_thickness", "pressure_advance", "enable_pressure_advance",
   "enable_arc_fitting", "enable_prime_tower", "prime_tower_width", "prime_tower_rib_width",
   "prime_tower_lift_height", "prime_tower_max_speed", "prime_tower_brim_width", "wipe_tower_x",
   "wipe_tower_y", "avoid_crossing_wall", "reduce_crossing_wall", "reduce_infill_retraction",
   "complete_objects", "print_sequence", "exclude_object"]

/-- Unwrap single-element vendor arrays to scalars. -/
def unwrapSingle : JValue → JValue
  | .arr [x] => x
  | v => v

/-- Normalize every config entry by unwrapping single-element arrays. -/
def normalizeConfigEntries (config : JsObj) : JsObj :=
  config.map (fun p => (p.1, unwrapSingle p.2))

/-- One step of the mapping fold: skip null parses and already-populated
canonical keys, otherwise record the parsed value. -/
def mappingStep (cfg : JsObj) (acc : JsObj × List String) (m : ConfigMapping) :
    JsObj × List String :=
  match m.parse (jsLookup cfg m.configKey) with
  | none => acc
  | some v =>
    if acc.2.contains m.targetKey then acc
    else (jsSet acc.1 m.targetKey v, m.targetKey :: acc.2)

/-- Derive `adhesion_type` from `raft_layers` / `brim_width` (raft wins). -/
def applyAdhesionFromConfig (cfg settings : JsObj) : JsObj :=
  let raft := numberOrNull (firstVal (jsLookup cfg "raft_layers"))
  let brim := numberOrNull (firstVal (jsLookup cfg "brim_width"))
  if (match raft with | some r => r ≠ 0 && decide (r > 0) | none => false) then
    jsSet settings "adhesion_type" (.str "raft")
  else if (match brim with | some b => b ≠ 0 && decide (b > 0) | none => false) then
    jsSet settings "adhesion_type" (.str "brim")
  else settings

/-- Populate the canonical speeds sub-object from the speed mappings. -/
def applySpeedsFromConfig (cfg settings : JsObj) : JsObj :=
  let base :=
    match jsLookup settings "speeds" with
    | none => ([] : JsObj)
    | some .null => []
    | some v => jsSpreadFields (some v)
  let folded :=
    SPEED_MAPPINGS.foldl
      (fun (acc : JsObj × Bool) m =>
        match numberOrNull (firstVal (jsLookup cfg m.1)) with
        | none => acc
        | some q => (jsSet acc.1 m.2 (.num q), true))
      (base, false)
  if folded.2 then jsSet settings "speeds" (.obj folded.1) else settings

/-- Carry allow-listed unconsumed vendor keys through verbatim, never
overwriting an already-defined canonical key. -/
def mergeRemainingConfig (cfg settings : JsObj) : JsObj :=
  cfg.foldl
    (fun s p =>
      if CONSUMED_CONFIG_KEYS.contains p.1 then s
      else if ¬ ALLOWED_EXTRA_CONFIG_KEYS.contains p.1 then s
      else if (jsLookup s p.1).isSome then s
      else jsSet s p.1 p.2)
    settings

/-- Map a vendor config payload into the normalized settings shape. -/
def mapConfigToSettings (config baseSettings : JsObj) : JsObj :=
  let n := normalizeConfigEntries config
  let folded := GLOBAL_PROCESS_MAPPINGS.foldl (mappingStep n) (baseSettings, [])
  let s1 := applyAdhesionFromConfig n folded.1
  let s2 := applySpeedsFromConfig n s1
  mergeRemainingConfig n s2

/-- The successful parses of the mappings targeting canonical key `k`, in
declaration order; the head is the first-win value. -/
def firstWinValue (config : JsObj) (k : String) : Option JValue :=
  (GLOBAL_PROCESS_MAPPINGS.filterMap
    (fun m =>
      if m.targetKey = k then m.parse (jsLookup (normalizeConfigEntries config) m.configKey)
      else none)).head?

/-- The canonical keys targeted by the mapping table. -/
def MAPPING_TARGET_KEYS : List String :=
  GLOBAL_PROCESS_MAPPINGS.map (fun m => m.targetKey)

/-! ### `src/3mf/parser.js` — geometry hint derivation -/

/-- Geometry hint derived from a bounding box. -/
structure GeometryHint where
  bounding_box_mm : ℚ × ℚ × ℚ
  max_dimension_mm : ℚ
  min_dimension_mm : ℚ
  height_to_min_footprint_ratio : Option ℚ
  is_slender : Bool

/-- Derive a geometry hint from a `[x, y, z]` bounding box; absent bounding
boxes yield `null`. -/
def buildGeometryFromBounding : Option (ℚ × ℚ × ℚ) → Option GeometryHint
  | none => none
  | some (x, y, z) =>
    let maxDimension := max x (max y z)
    let minDimension := min x (min y z)
    let ratio : Option ℚ := if minDimension = 0 then none else some (z / minDimension)
    some
      { bounding_box_mm := (x, y, z),
        max_dimension_mm := maxDimension,
        min_dimension_mm := minDimension,
        height_to_min_footprint_ratio := ratio,
        is_slender :=
          match ratio with
          | some r => if r = 0 then false else decide (r > 4)
          | none => false }

/-- The slenderness test as the specification words it: ratio of the
largest-axis extent to the smallest planar footprint extent exceeds 4,
false when the footprint is zero.  Stated for comparison with the code. -/
def specIsSlender (x y z : ℚ) : Bool :=
  if min x y = 0 then false
  else decide (max x (max y z) / min x y > 4)

/-! ### `src/3mf/writer.js` -/

/-- Insert into a JS `Set` modelled as a duplicate-free list. -/
def setAddStr (l : List String) (k : String) : List String :=
  if l.contains k then l else l ++ [k]

/-- Shape-preserving value write: arrays are refilled with the stringified
value at every position (an empty array becomes a singleton), anything else
becomes the stringified scalar; `null`/`undefined` values leave the entry
untouched. -/
def setConfigValue (existing : Option JValue) (value : JValue) : Option JValue :=
  match value with
  | .null => existing
  | _ =>
    let asString := jsToString value
    match existing with
    | some (.arr a) =>
      if a.isEmpty then some (.arr [.str asString])
      else some (.arr (a.map (fun _ => .str asString)))
    | _ => some (.str asString)

/-- `shaped` mode write: apply `setConfigValue` at the key and mark it
touched. -/
def setShapedConfigValue (cfg : JsObj) (touched : List String) (key : String)
    (value : JValue) : JsObj × List String :=
  (match setConfigValue (jsLookup cfg key) value with
   | some v => jsSet cfg key v
   | none => cfg,
   setAddStr touched key)

/-- `direct` mode write: store the value as-is, skipping `null`. -/
def setDirectConfigValue (cfg : JsObj) (touched : List String) (key : String)
    (value : JValue) : JsObj × List String :=
  match value with
  | .null => (cfg, touched)
  | v => (jsSet cfg key v, setAddStr touched key)

/-- The static category table `DIFFERENT_SETTINGS_GROUP_KEYS`. -/
def DS_PRINT_KEYS : List String :=
  ["layer_height", "initial_layer_print_height", "wall_loops", "top_shell_layers",
   "bottom_shell_layers", "sparse_infill_density", "sparse_infill_pattern",
   "outer_wall_speed", "inner_wall_speed", "sparse_infill_speed", "initial_layer_speed",
   "enable_support", "brim_width", "raft_layers", "default_print_profile"]

/-- Filament-category keys of the static table. -/
def DS_FILAMENT_KEYS : List String :=
  ["compatible_printers", "eng_plate_temp", "hot_plate_temp", "fan_max_speed",
   "first_x_layer_fan_speed", "nozzle_temperature", "nozzle_temperature_initial_layer",
   "filament_type"]

/-- Printer-category keys of the static table. -/
def DS_PRINTER_KEYS : List String :=
  ["printer_model", "nozzle_diameter"]

/-- The three bookkeeping groups (print / filament / printer). -/
structure DiffGroups where
  print : List String
  filament : List String
  printer : List String

/-- Split the existing bookkeeping field into its three groups (missing or
non-string entries read as empty; keys are trimmed and blanks dropped). -/
def parseDifferentSettingsToSystem (existing : Option JValue) : DiffGroups :=
  let a := match existing with | some (.arr xs) => xs | _ => []
  let groupAt := fun (i : Nat) =>
    match a.get? i with
    | some (.str s) =>
      (((splitOnChar ';' s.data).map (fun g => trimAscii (String.mk g))).filter
        (fun k => k ≠ ""))
    | _ => []
  ⟨groupAt 0, groupAt 1, groupAt 2⟩

/-- Group index recorded for a key by the pre-existing bookkeeping field
(later groups overwrite earlier ones in the key index). -/
def existingGroupIndex (g : DiffGroups) (k : String) : Option Nat :=
  if g.printer.contains k then some 2
  else if g.filament.contains k then some 1
  else if g.print.contains k then some 0
  else none

/-- Resolve the destination group of a touched key: pre-existing group
first, then the static table, defaulting to the print group. -/
def resolveDifferentSettingsGroupIndex (k : String) (g : DiffGroups) : Nat :=
  match existingGroupIndex g k with
  | some i => i
  | none =>
    if DS_PRINT_KEYS.contains k then 0
    else if DS_FILAMENT_KEYS.contains k then 1
    else if DS_PRINTER_KEYS.contains k then 2
    else 0

/-- Deduplicate preserving first occurrences (JS `new Set(items)`). -/
def dedupKeys (l : List String) : List String := l.foldl setAddStr []

/-- Add a key to the group selected by index. -/
def addKeyToGroup (m : DiffGroups) (i : Nat) (k : String) : DiffGroups :=
  match i with
  | 0 => { m with print := setAddStr m.print k }
  | 1 => { m with filament := setAddStr m.filament k }
  | _ => { m with printer := setAddStr m.printer k }

/-- Array-aware equality of two vendor config values. -/
def areConfigValuesEqual (a b : Option JValue) : Bool :=
  match a, b with
  | some (.arr xs), some (.arr ys) =>
    xs.length = ys.length && (xs.zip ys).all (fun p => jsStrictEq p.1 p.2)
  | some (.arr _), _ => false
  | _, some (.arr _) => false
  | some x, some y => jsStrictEq x y
  | none, none => true
  | _, _ => false

/-- Serialize one group: empty becomes the empty string, otherwise the keys
sorted lexicographically and semicolon-joined. -/
def formatDifferentSettingsGroup (keys : List String) : String :=
  if keys.isEmpty then ""
  else joinWith ";" (keys.insertionSort (fun a b => strLe a b = true))

/-- One step of the touched-key loop of `updateDifferentSettingsToSystem`:
skip the bookkeeping key itself and unchanged values, otherwise add the key
to its resolved group. -/
def differentSettingsStep (base updated : JsObj) (groups : DiffGroups)
    (m : DiffGroups) (k : String) : DiffGroups :=
  if k = "different_settings_to_system" then m
  else if areConfigValuesEqual (jsLookup base k) (jsLookup updated k) then m
  else addKeyToGroup m (resolveDifferentSettingsGroupIndex k groups) k

/-- Recompute the `different_settings_to_system` bookkeeping field from the
pre-existing field, the original and updated configs, and the touched keys. -/
def updateDifferentSettingsToSystem (existing : Option JValue)
    (base updated : JsObj) (touched : List String) : List String :=
  let groups := parseDifferentSettingsToSystem existing
  let merged0 : DiffGroups :=
    ⟨dedupKeys groups.print, dedupKeys groups.filament, dedupKeys groups.printer⟩
  let merged1 := touched.foldl (differentSettingsStep base updated groups) merged0
  let merged2 :=
    if merged1.filament.length > 0 then
      { merged1 with filament := setAddStr merged1.filament "compatible_printers" }
    else merged1
  [formatDifferentSettingsGroup merged2.print,
   formatDifferentSettingsGroup merged2.filament,
   formatDifferentSettingsGroup merged2.printer]

/-- Canonical sorted semicolon-join of a key collection (the form the claim
about the bookkeeping groups is stated in). -/
def sortedJoin (l : List String) : String :=
  if l.isEmpty then ""
  else joinWith ";" ((dedupKeys l).insertionSort (fun a b => strLe a b = true))

/-- The touched keys whose serialized value changed that resolve to group
`i` (the claim's description of a group's added keys). -/
def changedTouchedKeys (base updated : JsObj) (pre : DiffGroups)
    (touched : List String) (i : Nat) : List String :=
  touched.filter (fun k =>
    !(areConfigValuesEqual (jsLookup base k) (jsLookup updated k)) &&
    decide (resolveDifferentSettingsGroupIndex k pre = i))

/-! ### Concrete fixtures used by the witnesses -/

/-- A small normalized model: one plate with one object, integer-valued
global settings, one user-modified setting key. -/
def fixModel : NormalizedModel :=
  { plates := [⟨0, "Plate 1", [⟨"Cube", none⟩]⟩],
    currentSettings :=
      { globalProcess :=
          [("layer_height_mm", .num 2), ("wall_line_count", .num 4),
           ("speeds", .obj [("wall_outer", .num 40)])],
        perObjectOverrides := [] },
    userModifiedSettings := ["Wall_Loops"] }

/-- An object-scope change proposing the value the model already has. -/
def fixNoOpChange : LlmChange :=
  { scope := some "object", target := some ⟨some "Cube", none, none⟩,
    parameter := "layer_height_mm", newValue := .num 2,
    changeType := none, reason := none }

/-- A relative change with factor `-0.5` against `wall_line_count`. -/
def fixRelChange : LlmChange :=
  { scope := none, target := none, parameter := "wall_line_count",
    newValue := .num (-0.5), changeType := some "relative", reason := none }

/-- A change addressing an unknown global parameter. -/
def fixUnknownChange : LlmChange :=
  { scope := some "global", target := none, parameter := "not_a_real_key",
    newValue := .num 1, changeType := none, reason := none }

/-- An object change whose target object exists on no plate. -/
def fixMissingObjectChange : LlmChange :=
  { scope := some "object", target := some ⟨some "Ghost", none, none⟩,
    parameter := "layer_height_mm", newValue := .num 1,
    changeType := none, reason := none }

/-- A relative change whose proposed value is not numeric. -/
def fixBadRelChange : LlmChange :=
  { scope := none, target := none, parameter := "wall_line_count",
    newValue := .str "half", changeType := some "relative", reason := none }

/-- A change whose parameter matches the user-modified entry `Wall_Loops`
after normalization. -/
def fixLockedChange : LlmChange :=
  { scope := none, target := none, parameter := "wall-loops",
    newValue := .num 3, changeType := none, reason := none }

/-- An object-scope change with no target at all. -/
def fixNoTargetChange : LlmChange :=
  { scope := some "object", target := none, parameter := "layer_height_mm",
    newValue := .num 1, changeType := none, reason := none }

/-- An object-scope change for an existing object with a parameter unknown
at both the object and the global level. -/
def fixUnknownObjectChange : LlmChange :=
  { scope := some "object", target := some ⟨some "Cube", none, none⟩,
    parameter := "nonexistent_setting", newValue := .num 1,
    changeType := none, reason := none }

/-- Projection of the bookkeeping groups by index. -/
def groupGet (m : DiffGroups) : Nat → List String
  | 0 => m.print
  | 1 => m.filament
  | _ => m.printer

/-! ## Theorems -/

/-! ### Association-list lemmas -/

theorem jsLookup_jsSet_self (o : JsObj) (k : String) (v : JValue) :
    jsLookup (jsSet o k v) k = some v := by
  induction o with
  | nil => simp [jsSet, jsLookup]
  | cons p rest ih =>
    by_cases h : p.1 = k
    · simp [jsSet, jsLookup, h]
    · simpa [jsSet, jsLookup, h] using ih

theorem jsLookup_jsSet_ne (o : JsObj) (k k' : String) (v : JValue) (h : k ≠ k') :
    jsLookup (jsSet o k v) k' = jsLookup o k' := by
  induction o with
  | nil => simp [jsSet, jsLookup, h]
  | cons p rest ih =>
    by_cases hp : p.1 = k
    · simp [jsSet, jsLookup, hp, h]
    · by_cases hp' : p.1 = k'
      · simp [jsSet, jsLookup, hp, hp', Ne.symm h]
      · simpa [jsSet, jsLookup, hp, hp'] using ih

/-! ### C3 — slenderness hint from the bounding box -/

/-- C3, counterexample.  At bounding box `[1, 10, 1]` the ratio of the
largest-axis extent (10) to the smallest planar footprint extent (1)
exceeds 4, so the claim requires `is_slender = true`; the code computes
`z / min(x, y, z) = 1` and yields `is_slender = false`. -/
theorem C3_counterexample :
    (buildGeometryFromBounding (some (1, 10, 1))).map (fun g => g.is_slender) =
        some false ∧
      specIsSlender 1 10 1 = true := by
  constructor
  · norm_num [buildGeometryFromBounding]
  · norm_num [specIsSlender]

/-- C3, amended: for an object with a present bounding box `[x, y, z]` the
derived hint sets `is_slender = true` exactly when the ratio of the height
`z` to the smallest extent over all three axes exceeds 4.0, and sets
`is_slender = false` when that ratio is undefined because the smallest
extent is zero. -/
theorem C3_amended (x y z : ℚ) :
    (buildGeometryFromBounding (some (x, y, z))).map (fun g => g.is_slender) =
      some (decide (min x (min y z) ≠ 0 ∧ z / min x (min y z) > 4)) := by
  by_cases h : min x (min y z) = 0
  · simp [buildGeometryFromBounding, h]
  · by_cases hr : z / min x (min y z) = 0
    · simp [buildGeometryFromBounding, h, hr]
    · simp [buildGeometryFromBounding, h, hr]

/-! ### C8 — relative change arithmetic -/

/-- C8: for a `relative` change, numeric current and proposed values give
`current + current * newValue` with no warning; otherwise the warning is
emitted and the current value is returned unchanged. -/
theorem C8_relative_math (cur : JValue) (c : LlmChange)
    (h : c.changeType = some "relative") :
    (∀ a d : ℚ, cur = .num a → c.newValue = .num d →
      computeNewValue cur c = (.num (a + a * d), none)) ∧
    (((∀ a : ℚ, cur ≠ .num a) ∨ (∀ d : ℚ, c.newValue ≠ .num d)) →
      computeNewValue cur c = (cur, some (.relativeNumeric c.parameter))) := by
  constructor
  · rintro a d rfl hd
    simp [computeNewValue, h, hd]
  · intro hnn
    cases hc : cur with
    | num a =>
      cases hv : c.newValue with
      | num d =>
        rcases hnn with hn | hn
        · exact absurd hc.symm.symm (by simpa using hn a)
        · exact absurd hv (hn d)
      | str s => simp [computeNewValue, h, hv]
      | bool b => simp [computeNewValue, h, hv]
      | null => simp [computeNewValue, h, hv]
      | arr a2 => simp [computeNewValue, h, hv]
      | obj f => simp [computeNewValue, h, hv]
    | str s => simp [computeNewValue, h]
    | bool b => simp [computeNewValue, h]
    | null => simp [computeNewValue, h]
    | arr a2 => simp [computeNewValue, h]
    | obj f => simp [computeNewValue, h]

/-- C8, witness: current value `4` with relative `newValue = -0.5` yields
`2`, and a non-numeric relative proposal warns and keeps the current
value. -/
theorem C8_relative_math_witness :
    computeNewValue (.num 4) fixRelChange = (.num 2, none) ∧
    computeNewValue (.num 4) fixBadRelChange =
      (.num 4, some (.relativeNumeric "wall_line_count")) := by
  constructor
  · have h := (C8_relative_math (.num 4) fixRelChange rfl).1 4 (-0.5) rfl rfl
    rw [h]
    norm_num
  · have h := (C8_relative_math (.num 4) fixBadRelChange rfl).2
      (Or.inr (by intro d hd; simp [fixBadRelChange] at hd))
    simpa [fixBadRelChange] using h

/-! ### C1 — response validation -/

theorem validateChange_isOk (c : JValue) :
    (validateChange c).isOk = changeAcceptedSpec c := by
  cases c with
  | null => simp [validateChange, changeAcceptedSpec, Except.isOk, Except.toBool]
  | num q => simp [validateChange, changeAcceptedSpec, jsGetProp, jsTruthy, Except.isOk, Except.toBool]
  | str s => simp [validateChange, changeAcceptedSpec, jsGetProp, jsTruthy, Except.isOk, Except.toBool]
  | bool b => simp [validateChange, changeAcceptedSpec, jsGetProp, jsTruthy, Except.isOk, Except.toBool]
  | arr a => simp [validateChange, changeAcceptedSpec, jsGetProp, jsTruthy, Except.isOk, Except.toBool]
  | obj f =>
    by_cases hp : jsTruthy ((jsLookup f "parameter").getD .null)
    · cases hnv : jsLookup f "newValue" with
      | none =>
        simp [validateChange, changeAcceptedSpec, jsGetProp, hp, hnv, Except.isOk, Except.toBool]
      | some nv =>
        cases hs : jsLookup f "scope" with
        | none =>
          simp [validateChange, changeAcceptedSpec, jsGetProp, hp, hnv, hs, Except.isOk, Except.toBool]
        | some sv =>
          cases sv with
          | null =>
            simp [validateChange, changeAcceptedSpec, jsGetProp, hp, hnv, hs, Except.isOk, Except.toBool]
          | str s =>
            by_cases hgs : s = "global" ∨ s = "object"
            · rcases hgs with h | h <;>
                simp [validateChange, changeAcceptedSpec, jsGetProp, hp, hnv, hs, h,
                  Except.isOk, Except.toBool]
            · push_neg at hgs
              simp [validateChange, changeAcceptedSpec, jsGetProp, hp, hnv, hs, hgs,
                hgs.1, hgs.2, Except.isOk, Except.toBool]
          | num q =>
            simp [validateChange, changeAcceptedSpec, jsGetProp, hp, hnv, hs, Except.isOk, Except.toBool]
          | bool b =>
            simp [validateChange, changeAcceptedSpec, jsGetProp, hp, hnv, hs, Except.isOk, Except.toBool]
          | arr a =>
            simp [validateChange, changeAcceptedSpec, jsGetProp, hp, hnv, hs, Except.isOk, Except.toBool]
          | obj g =>
            simp [validateChange, changeAcceptedSpec, jsGetProp, hp, hnv, hs, Except.isOk, Except.toBool]
    · simp [validateChange, changeAcceptedSpec, jsGetProp, hp, Except.isOk, Except.toBool]

theorem validateAllChanges_isOk (cs : List JValue) :
    (validateAllChanges cs).isOk = cs.all changeAcceptedSpec := by
  induction cs with
  | nil => simp [validateAllChanges, Except.isOk, Except.toBool]
  | cons c rest ih =>
    cases hc : validateChange c with
    | error e =>
      have : changeAcceptedSpec c = false := by
        have h := validateChange_isOk c
        rw [hc] at h
        simpa [Except.isOk, Except.toBool] using h.symm
      simp [validateAllChanges, hc, this, Except.isOk, Except.toBool]
    | ok v =>
      have hacc : changeAcceptedSpec c = true := by
        have h := validateChange_isOk c
        rw [hc] at h
        simpa [Except.isOk, Except.toBool] using h.symm
      cases hr : validateAllChanges rest with
      | error e =>
        have : rest.all changeAcceptedSpec = false := by
          have h := ih
          rw [hr] at h
          simpa [Except.isOk, Except.toBool] using h.symm
        simp [validateAllChanges, hc, hr, hacc, this, Except.isOk, Except.toBool]
      | ok vs =>
        have : rest.all changeAcceptedSpec = true := by
          have h := ih
          rw [hr] at h
          simpa [Except.isOk, Except.toBool] using h.symm
        simp [validateAllChanges, hc, hr, hacc, this, Except.isOk, Except.toBool]

/-- C1, counterexample.  A response whose single change carries the
unrecognized `changeType` value `"multiplicative"` is accepted by
`parseLlmResponse` (no `InvalidLlmResponseError` is thrown), and the bogus
change type is passed through into the validated change; the claim asserts
such a response is rejected. -/
theorem C1_counterexample :
    (parseLlmResponse (.obj [("changes", .arr
        [.obj [("parameter", .str "x"), ("newValue", .num 1),
               ("changeType", .str "multiplicative")]])])).isOk = true ∧
      (match parseLlmResponse (.obj [("changes", .arr
          [.obj [("parameter", .str "x"), ("newValue", .num 1),
                 ("changeType", .str "multiplicative")]])]) with
       | .ok r => r.changes.map (fun ch => ch.changeType)
       | .error _ => []) = [.str "multiplicative"] := by
  exact ⟨rfl, rfl⟩

/-- C1, amended: `parseLlmResponse` accepts a response exactly when it is an
object carrying a `changes` array all of whose entries have a truthy
`parameter`, a present `newValue`, and a `scope` that is absent, `null`,
`"global"` or `"object"`; responses failing any of these checks are rejected
whole (the first offending entry aborts validation).  `changeType` is not
validated: any value is passed through, with absent or `null` defaulting to
`"absolute"`. -/
theorem C1_amended (v : JValue) :
    (parseLlmResponse v).isOk = responseAcceptedSpec v := by
  cases v with
  | obj f =>
    cases hc : jsLookup f "changes" with
    | none => simp [parseLlmResponse, responseAcceptedSpec, hc, Except.isOk, Except.toBool]
    | some cv =>
      cases cv with
      | arr cs =>
        cases hr : validateAllChanges cs with
        | error e =>
          have : cs.all changeAcceptedSpec = false := by
            have h := validateAllChanges_isOk cs
            rw [hr] at h
            simpa [Except.isOk, Except.toBool] using h.symm
          simp [parseLlmResponse, responseAcceptedSpec, hc, hr, this, Except.isOk, Except.toBool]
        | ok vs =>
          have : cs.all changeAcceptedSpec = true := by
            have h := validateAllChanges_isOk cs
            rw [hr] at h
            simpa [Except.isOk, Except.toBool] using h.symm
          simp [parseLlmResponse, responseAcceptedSpec, hc, hr, this, Except.isOk, Except.toBool]
      | num q => simp [parseLlmResponse, responseAcceptedSpec, hc, Except.isOk, Except.toBool]
      | str s => simp [parseLlmResponse, responseAcceptedSpec, hc, Except.isOk, Except.toBool]
      | bool b => simp [parseLlmResponse, responseAcceptedSpec, hc, Except.isOk, Except.toBool]
      | null => simp [parseLlmResponse, responseAcceptedSpec, hc, Except.isOk, Except.toBool]
      | obj g => simp [parseLlmResponse, responseAcceptedSpec, hc, Except.isOk, Except.toBool]
  | num q => simp [parseLlmResponse, responseAcceptedSpec, Except.isOk, Except.toBool]
  | str s => simp [parseLlmResponse, responseAcceptedSpec, Except.isOk, Except.toBool]
  | bool b => simp [parseLlmResponse, responseAcceptedSpec, Except.isOk, Except.toBool]
  | null => simp [parseLlmResponse, responseAcceptedSpec, Except.isOk, Except.toBool]
  | arr a => simp [parseLlmResponse, responseAcceptedSpec, Except.isOk, Except.toBool]

/-! ### C5 — round-trip shape preservation -/

/-- C5, counterexample.  A vendor entry holding an empty array (length 0)
is rewritten as a one-element array: the claim's "array of length N in,
array of length N out" fails at N = 0. -/
theorem C5_counterexample :
    (setShapedConfigValue [("layer_height", .arr [])] [] "layer_height"
        (.str "0.3")).1 =
      [("layer_height", .arr [.str "0.3"])] ∧
    (match jsLookup [("layer_height", (.arr [] : JValue))] "layer_height" with
     | some (.arr a) => a.length
     | _ => 99) = 0 := by
  constructor
  · simp [setShapedConfigValue, setConfigValue, jsToString, jsLookup, jsSet]
  · rfl

/-- C5, amended: writing back a changed canonical value preserves the
entry's shape for arrays of length at least 1 (every element becomes the
serialized string) and for scalars (the scalar becomes the serialized
string); an empty array, however, becomes a one-element array. -/
theorem C5_amended (cfg : JsObj) (touched : List String) (key : String)
    (v : JValue) (hv : v ≠ .null) :
    (∀ es : List JValue, jsLookup cfg key = some (.arr es) → es ≠ [] →
      jsLookup (setShapedConfigValue cfg touched key v).1 key =
        some (.arr (List.replicate es.length (.str (jsToString v))))) ∧
    (jsLookup cfg key = some (.arr []) →
      jsLookup (setShapedConfigValue cfg touched key v).1 key =
        some (.arr [.str (jsToString v)])) ∧
    (∀ s : String, jsLookup cfg key = some (.str s) →
      jsLookup (setShapedConfigValue cfg touched key v).1 key =
        some (.str (jsToString v))) := by
  have hset : ∀ existing : Option JValue,
      setConfigValue existing v =
        match existing with
        | some (.arr a) =>
          if a.isEmpty then some (.arr [.str (jsToString v)])
          else some (.arr (a.map (fun _ => .str (jsToString v))))
        | _ => some (.str (jsToString v)) := by
    intro existing
    cases v with
    | null => exact absurd rfl hv
    | num q => cases existing with
      | none => rfl
      | some e => cases e <;> rfl
    | str s => cases existing with
      | none => rfl
      | some e => cases e <;> rfl
    | bool b => cases existing with
      | none => rfl
      | some e => cases e <;> rfl
    | arr a => cases existing with
      | none => rfl
      | some e => cases e <;> rfl
    | obj f => cases existing with
      | none => rfl
      | some e => cases e <;> rfl
  refine ⟨?_, ?_, ?_⟩
  · intro es h hne
    simp [setShapedConfigValue, hset, h, List.isEmpty_iff, hne, jsLookup_jsSet_self,
      List.map_const]
  · intro h
    simp [setShapedConfigValue, hset, h, jsLookup_jsSet_self]
  · intro s h
    simp [setShapedConfigValue, hset, h, jsLookup_jsSet_self]

/-- C5, witness: a two-element array entry is rewritten as a two-element
array both of whose elements are the new serialized string, and a scalar
entry is rewritten as the new scalar string. -/
theorem C5_amended_witness :
    jsLookup (setShapedConfigValue [("sparse_infill_density", .arr [.str "15%", .str "15%"])]
        [] "sparse_infill_density" (.str "30%")).1 "sparse_infill_density" =
      some (.arr [.str "30%", .str "30%"]) ∧
    jsLookup (setShapedConfigValue [("layer_height", .str "0.2")]
        [] "layer_height" (.str "0.3")).1 "layer_height" = some (.str "0.3") := by
  constructor
  · have h := (C5_amended [("sparse_infill_density", .arr [.str "15%", .str "15%"])]
      [] "sparse_infill_density" (.str "30%") (by simp)).1
      [.str "15%", .str "15%"] rfl (by simp)
    simpa [jsToString] using h
  · have h := (C5_amended [("layer_height", .str "0.2")]
      [] "layer_height" (.str "0.3") (by simp)).2.2 "0.2" rfl
    simpa [jsToString] using h

/-! ### C10 — parameter string used as object name -/

theorem findIdx?_some_pred {α : Type _} (p : α → Bool) :
    ∀ (l : List α) (i : Nat), List.findIdx? p l = some i →
      ∃ x, l.get? i = some x ∧ p x = true := by
  intro l
  induction l with
  | nil => intro i h; simp [List.findIdx?] at h
  | cons x xs ih =>
    intro i h
    rw [List.findIdx?_cons] at h
    by_cases hp : p x
    · simp [hp] at h
      subst h
      exact ⟨x, by simp, hp⟩
    · simp [hp] at h
      obtain ⟨a, ha, hai⟩ := h
      obtain ⟨y, hy, hpy⟩ := ih a ha
      subst hai
      exact ⟨y, by simpa using hy, hpy⟩

/-- C10: an object-scoped change whose target is absent or names nothing
falls back to the change's parameter string as the object name: the plate
search looks for an object literally named like the parameter, a failed
search warns with the parameter string reported as the object, and a diff
is only ever produced when some plate contains an object so named. -/
theorem C10_parameter_as_object_name (st : EngineState) (c : LlmChange)
    (hs : c.scope = some "object")
    (ht : c.target = none ∨
      ∃ t, c.target = some t ∧ t.objectName = none ∧ t.name = none) :
    resolveObjectTarget c = (c.parameter, c.target.bind (fun t => t.plateIndex)) ∧
    (findPlateIdx st.updated.plates c.parameter
        (c.target.bind (fun t => t.plateIndex)) = none →
      applySingleChange st c =
        { st with warnings := st.warnings ++ [.objectNotFound c.parameter c.parameter] }) ∧
    (∀ d, d ∈ (applySingleChange st c).diffs → d ∉ st.diffs →
      ∃ p ∈ st.updated.plates, p.objects.any (fun o => o.name = c.parameter) = true) := by
  have htgt : resolveObjectTarget c = (c.parameter, c.target.bind (fun t => t.plateIndex)) := by
    rcases ht with h | ⟨t, h, h1, h2⟩
    · simp [resolveObjectTarget, h]
    · simp [resolveObjectTarget, h, h1, h2]
  have hng : (c.scope.getD "global" = "global") = False := by
    rw [hs]
    simp
  refine ⟨htgt, ?_, ?_⟩
  · intro hf
    simp [applySingleChange, hng, applyObjectChange, htgt, hf]
  · intro d hd hnd
    cases hf : findPlateIdx st.updated.plates c.parameter
        (c.target.bind (fun t => t.plateIndex)) with
    | none =>
      have heq : applySingleChange st c =
          { st with warnings := st.warnings ++ [.objectNotFound c.parameter c.parameter] } := by
        simp [applySingleChange, hng, applyObjectChange, htgt, hf]
      rw [heq] at hd
      exact absurd hd hnd
    | some pIdx =>
      obtain ⟨plate, hplate, hpred⟩ :=
        findIdx?_some_pred _ st.updated.plates pIdx hf
      have hmem : plate ∈ st.updated.plates := List.get?_mem hplate
      have hany : plate.objects.any (fun o => o.name = c.parameter) = true := by
        simp only [Bool.and_eq_true] at hpred
        exact hpred.2
      exact ⟨plate, hmem, hany⟩

/-- C10, witness: an object change with no target and parameter
`layer_height_mm` searches for an object named `layer_height_mm`, finds
none, and warns reporting that parameter string as the object. -/
theorem C10_parameter_as_object_name_witness :
    applySingleChange ⟨fixModel, [], []⟩ fixNoTargetChange =
      { updated := fixModel,
        warnings := [.objectNotFound "layer_height_mm" "layer_height_mm"],
        diffs := [] } := by
  have h := (C10_parameter_as_object_name ⟨fixModel, [], []⟩ fixNoTargetChange rfl
    (Or.inl rfl)).2.1 rfl
  simpa using h

/-! ### C2 — no-op suppression -/

/-- C2, counterexample.  An object-scope change proposing exactly the
current (global-fallback) value yields no diff, as claimed — but the model
IS mutated: `ensureObjectOverride` runs before the no-op check and creates
an empty override record for the target, so the override store is no longer
the original empty store. -/
theorem C2_counterexample :
    (applyLlmChanges fixModel ⟨[fixNoOpChange], []⟩ true).diffs = [] ∧
    (applyLlmChanges fixModel ⟨[fixNoOpChange], []⟩ true).warnings = [] ∧
    (applyLlmChanges fixModel ⟨[fixNoOpChange], []⟩ true).updated.currentSettings.perObjectOverrides =
      [("0::Cube", .obj [("plateIndex", .num 0), ("objectName", .str "Cube")])] ∧
    fixModel.currentSettings.perObjectOverrides = [] ∧
    resolveParameterGet fixModel.currentSettings.globalProcess "layer_height_mm" =
      some fixNoOpChange.newValue := by
  exact ⟨rfl, rfl, rfl, rfl, rfl⟩

/-- C2, amended: when the computed new value strictly equals the current
value no diff is recorded; for global scope the model is completely
unchanged, and for object scope the settings, plates and diffs are
unchanged but an empty override record is created for the target when none
existed; the only warning that can accompany such a change is the
non-numeric-relative warning produced during value computation (silent
skip otherwise). -/
theorem C2_amended (st : EngineState) (c : LlmChange) :
    (∀ cur, c.scope.getD "global" = "global" →
      resolveParameterGet st.updated.currentSettings.globalProcess c.parameter = some cur →
      isNoOpChange (computeNewValue cur c) cur = true →
      applySingleChange st c =
        { st with warnings := st.warnings ++ (computeNewValue cur c).2.toList }) ∧
    (∀ pIdx plate base, c.scope.getD "global" ≠ "global" →
      findPlateIdx st.updated.plates (resolveObjectTarget c).1 (resolveObjectTarget c).2 =
        some pIdx →
      st.updated.plates.get? pIdx = some plate →
      orDefined
        (resolveParameterGet
          (ensureObjectOverride st.updated.currentSettings.perObjectOverrides
            (resolveObjectTarget c).1 (some plate.index)).2 c.parameter)
        (resolveParameterGet st.updated.currentSettings.globalProcess c.parameter) =
        some base →
      isNoOpChange (computeNewValue base c) base = true →
      applySingleChange st c =
        { st with
          updated :=
            { st.updated with
              currentSettings :=
                { st.updated.currentSettings with
                  perObjectOverrides :=
                    (ensureObjectOverride st.updated.currentSettings.perObjectOverrides
                      (resolveObjectTarget c).1 (some plate.index)).1 } },
          warnings := st.warnings ++ (computeNewValue base c).2.toList }) ∧
    (∀ cur, c.changeType ≠ some "relative" → (computeNewValue cur c).2 = none) := by
  refine ⟨?_, ?_, ?_⟩
  · intro cur hscope hres hno
    simp [applySingleChange, hscope, applyGlobalChange, hres, hno]
  · intro pIdx plate base hscope hf hg hb hno
    rw [List.get?_eq_getElem?] at hg
    simp [applySingleChange, hscope, applyObjectChange, hf, hg, hb, hno]
  · intro cur hrel
    simp [computeNewValue, hrel]

/-- C2, amended, witness: the concrete no-op change of the counterexample
takes the object path, records no diff and no warning, and leaves the
model unchanged except for the freshly created empty override record. -/
theorem C2_amended_witness :
    applySingleChange ⟨fixModel, [], []⟩ fixNoOpChange =
      { updated :=
          { fixModel with
            currentSettings :=
              { fixModel.currentSettings with
                perObjectOverrides :=
                  [("0::Cube", .obj [("plateIndex", .num 0), ("objectName", .str "Cube")])] } },
        warnings := [], diffs := [] } := by
  have h := (C2_amended ⟨fixModel, [], []⟩ fixNoOpChange).2.1 0
    ⟨0, "Plate 1", [⟨"Cube", none⟩]⟩ (.num 2) (by decide) rfl rfl rfl rfl
  simpa using h

/-! ### C7 — user-modified setting lock -/

/-- C7: a change whose parameter matches an entry of the user-modified
settings — exactly, or after lower-casing and stripping non-alphanumerics
on both sides — is skipped with a locked-setting warning when enforcement
is on, and is dispatched normally when enforcement is off. -/
theorem C7_lock_enforcement (m : NormalizedModel) (ws : List String) (c : LlmChange)
    (h : ∃ e ∈ m.userModifiedSettings, e ≠ "" ∧
      (e = c.parameter ∨ normalizeSettingKey e = normalizeSettingKey c.parameter)) :
    applyLlmChanges m ⟨[c], ws⟩ true =
      { updated := m,
        warnings := ws.map .fromResponse ++ [.userSettingLocked c.parameter],
        diffs := [] } ∧
    applyLlmChanges m ⟨[c], ws⟩ false =
      applySingleChange ⟨m, ws.map .fromResponse, []⟩ c := by
  have hlock : isUserSettingLocked c.parameter
      (buildUserModifiedLookup m.userModifiedSettings) = true := by
    obtain ⟨e, he, hne, hmatch⟩ := h
    have hmem : e ∈ m.userModifiedSettings.filter (fun x => x ≠ "") := by
      simp only [List.mem_filter]
      exact ⟨he, by simpa using hne⟩
    have hnonempty :
        (m.userModifiedSettings.filter (fun x => x ≠ "")).isEmpty = false := by
      have hnn := List.ne_nil_of_mem hmem
      simpa [List.isEmpty_iff] using hnn
    unfold isUserSettingLocked buildUserModifiedLookup
    simp only [hnonempty, Bool.false_eq_true, if_false, Bool.or_eq_true]
    rcases hmatch with hm | hm
    · left
      subst hm
      exact List.elem_eq_true_of_mem hmem
    · right
      have : normalizeSettingKey c.parameter ∈
          (m.userModifiedSettings.filter (fun x => x ≠ "")).map normalizeSettingKey := by
        rw [← hm]
        exact List.mem_map_of_mem normalizeSettingKey hmem
      exact List.elem_eq_true_of_mem this
  constructor
  · simp [applyLlmChanges, applyChangeStep, hlock]
  · simp [applyLlmChanges, applyChangeStep]

/-- C7, witness: `wall-loops` matches the user-modified entry `Wall_Loops`
after normalization; with enforcement the change is skipped with a warning,
without enforcement it is dispatched normally. -/
theorem C7_lock_enforcement_witness :
    applyLlmChanges fixModel ⟨[fixLockedChange], []⟩ true =
      { updated := fixModel, warnings := [.userSettingLocked "wall-loops"],
        diffs := [] } ∧
    applyLlmChanges fixModel ⟨[fixLockedChange], []⟩ false =
      applySingleChange ⟨fixModel, [], []⟩ fixLockedChange := by
  have h := C7_lock_enforcement fixModel [] fixLockedChange
    ⟨"Wall_Loops", by simp [fixModel], by simp, Or.inr rfl⟩
  simpa using h

/-! ### C4 — per-change problems warn and skip, processing continues -/

theorem computeNewValue_nonnum (cur : JValue) (c : LlmChange)
    (h : c.changeType = some "relative")
    (hnn : (∀ a : ℚ, cur ≠ .num a) ∨ (∀ d : ℚ, c.newValue ≠ .num d)) :
    computeNewValue cur c = (cur, some (.relativeNumeric c.parameter)) := by
  cases hc : cur with
  | num a =>
    cases hv : c.newValue with
    | num d =>
      rcases hnn with hn | hn
      · exact absurd hc (hn a)
      · exact absurd hv (hn d)
    | str s => simp [computeNewValue, h, hv]
    | bool b => simp [computeNewValue, h, hv]
    | null => simp [computeNewValue, h, hv]
    | arr a2 => simp [computeNewValue, h, hv]
    | obj f => simp [computeNewValue, h, hv]
  | str s => simp [computeNewValue, h]
  | bool b => simp [computeNewValue, h]
  | null => simp [computeNewValue, h]
  | arr a2 => simp [computeNewValue, h]
  | obj f => simp [computeNewValue, h]

/-- C4: each per-change problem — unknown global parameter, object not
found, unknown object parameter, non-numeric relative change, locked user
setting — appends exactly one warning, produces no diff and raises no
exception (the engine is a total function), and processing continues with
the remaining changes of the list. -/
theorem C4_warnings_not_exceptions (st : EngineState) (c : LlmChange) :
    (c.scope.getD "global" = "global" →
      resolveParameterGet st.updated.currentSettings.globalProcess c.parameter = none →
      applySingleChange st c =
        { st with warnings := st.warnings ++ [.unknownParameter c.parameter] }) ∧
    (c.scope.getD "global" ≠ "global" →
      findPlateIdx st.updated.plates (resolveObjectTarget c).1 (resolveObjectTarget c).2 =
        none →
      applySingleChange st c =
        { st with
          warnings := st.warnings ++
            [.objectNotFound (resolveObjectTarget c).1 c.parameter] }) ∧
    (∀ pIdx plate, c.scope.getD "global" ≠ "global" →
      findPlateIdx st.updated.plates (resolveObjectTarget c).1 (resolveObjectTarget c).2 =
        some pIdx →
      st.updated.plates.get? pIdx = some plate →
      orDefined
        (resolveParameterGet
          (ensureObjectOverride st.updated.currentSettings.perObjectOverrides
            (resolveObjectTarget c).1 (some plate.index)).2 c.parameter)
        (resolveParameterGet st.updated.currentSettings.globalProcess c.parameter) = none →
      applySingleChange st c =
        { st with
          updated :=
            { st.updated with
              currentSettings :=
                { st.updated.currentSettings with
                  perObjectOverrides :=
                    (ensureObjectOverride st.updated.currentSettings.perObjectOverrides
                      (resolveObjectTarget c).1 (some plate.index)).1 } },
          warnings := st.warnings ++
            [.unknownObjectParameter c.parameter (resolveObjectTarget c).1] }) ∧
    (∀ cur, c.scope.getD "global" = "global" →
      resolveParameterGet st.updated.currentSettings.globalProcess c.parameter = some cur →
      c.changeType = some "relative" →
      ((∀ a : ℚ, cur ≠ .num a) ∨ (∀ d : ℚ, c.newValue ≠ .num d)) →
      applySingleChange st c =
        { st with warnings := st.warnings ++ [.relativeNumeric c.parameter] }) ∧
    (∀ lookup, isUserSettingLocked c.parameter lookup = true →
      applyChangeStep true lookup st c =
        { st with warnings := st.warnings ++ [.userSettingLocked c.parameter] }) ∧
    (∀ (m : NormalizedModel) (cs₁ cs₂ : List LlmChange) (ws : List String) (b : Bool),
      applyLlmChanges m ⟨cs₁ ++ cs₂, ws⟩ b =
        cs₂.foldl (applyChangeStep b (buildUserModifiedLookup m.userModifiedSettings))
          (applyLlmChanges m ⟨cs₁, ws⟩ b)) := by
  refine ⟨?_, ?_, ?_, ?_, ?_, ?_⟩
  · intro hscope hres
    simp [applySingleChange, hscope, applyGlobalChange, hres]
  · intro hscope hf
    simp [applySingleChange, hscope, applyObjectChange, hf]
  · intro pIdx plate hscope hf hg hb
    rw [List.get?_eq_getElem?] at hg
    simp [applySingleChange, hscope, applyObjectChange, hf, hg, hb]
  · intro cur hscope hres hrel hnn
    have hcv := computeNewValue_nonnum cur c hrel hnn
    simp [applySingleChange, hscope, applyGlobalChange, hres, hcv, isNoOpChange]
  · intro lookup hlock
    simp [applyChangeStep, hlock]
  · intro m cs₁ cs₂ ws b
    simp [applyLlmChanges, List.foldl_append]

/-- C4, witness: each problem kind at a concrete input — unknown global
parameter, missing object, unknown object parameter, non-numeric relative
change, locked setting — adds one warning and no diff, and a two-change
response keeps processing after its first (problematic) change. -/
theorem C4_warnings_not_exceptions_witness :
    applySingleChange ⟨fixModel, [], []⟩ fixUnknownChange =
      { updated := fixModel, warnings := [.unknownParameter "not_a_real_key"],
        diffs := [] } ∧
    applySingleChange ⟨fixModel, [], []⟩ fixMissingObjectChange =
      { updated := fixModel, warnings := [.objectNotFound "Ghost" "layer_height_mm"],
        diffs := [] } ∧
    applySingleChange ⟨fixModel, [], []⟩ fixUnknownObjectChange =
      { updated :=
          { fixModel with
            currentSettings :=
              { fixModel.currentSettings with
                perObjectOverrides :=
                  [("0::Cube", .obj [("plateIndex", .num 0), ("objectName", .str "Cube")])] } },
        warnings := [.unknownObjectParameter "nonexistent_setting" "Cube"],
        diffs := [] } ∧
    applySingleChange ⟨fixModel, [], []⟩ fixBadRelChange =
      { updated := fixModel, warnings := [.relativeNumeric "wall_line_count"],
        diffs := [] } ∧
    applyChangeStep true (buildUserModifiedLookup fixModel.userModifiedSettings)
        ⟨fixModel, [], []⟩ fixLockedChange =
      { updated := fixModel, warnings := [.userSettingLocked "wall-loops"],
        diffs := [] } ∧
    applyLlmChanges fixModel ⟨[fixUnknownChange] ++ [fixRelChange], []⟩ true =
      [fixRelChange].foldl
        (applyChangeStep true (buildUserModifiedLookup fixModel.userModifiedSettings))
        (applyLlmChanges fixModel ⟨[fixUnknownChange], []⟩ true) := by
  refine ⟨?_, ?_, ?_, ?_, ?_, ?_⟩
  · have h := (C4_warnings_not_exceptions ⟨fixModel, [], []⟩ fixUnknownChange).1 rfl rfl
    simpa using h
  · have h := (C4_warnings_not_exceptions ⟨fixModel, [], []⟩ fixMissingObjectChange).2.1
      (by decide) rfl
    simpa using h
  · have h := (C4_warnings_not_exceptions ⟨fixModel, [], []⟩ fixUnknownObjectChange).2.2.1
      0 ⟨0, "Plate 1", [⟨"Cube", none⟩]⟩ (by decide) rfl rfl rfl
    simpa using h
  · have h := (C4_warnings_not_exceptions ⟨fixModel, [], []⟩ fixBadRelChange).2.2.2.1
      (.num 4) rfl rfl rfl (Or.inr (by intro d hd; simp [fixBadRelChange] at hd))
    simpa using h
  · have h := (C4_warnings_not_exceptions ⟨fixModel, [], []⟩ fixLockedChange).2.2.2.2.1
      (buildUserModifiedLookup fixModel.userModifiedSettings) rfl
    simpa using h
  · exact (C4_warnings_not_exceptions ⟨fixModel, [], []⟩ fixUnknownChange).2.2.2.2.2
      fixModel [fixUnknownChange] [fixRelChange] [] true

/-! ### C6 — first-wins duplicate resolution in the mapping table -/

theorem mappingFold_populated (cfg : JsObj) :
    ∀ (maps : List ConfigMapping) (acc : JsObj × List String) (k : String),
      k ∈ acc.2 →
      jsLookup (maps.foldl (mappingStep cfg) acc).1 k = jsLookup acc.1 k := by
  intro maps
  induction maps with
  | nil => intro acc k _; rfl
  | cons m rest ih =>
    intro acc k hk
    rw [List.foldl_cons]
    cases hp : m.parse (jsLookup cfg m.configKey) with
    | none =>
      rw [show mappingStep cfg acc m = acc by simp [mappingStep, hp]]
      exact ih acc k hk
    | some v =>
      by_cases hc : acc.2.contains m.targetKey
      · rw [show mappingStep cfg acc m = acc by
          simp [mappingStep, hp, List.mem_of_elem_eq_true hc]]
        exact ih acc k hk
      · have hne : m.targetKey ≠ k := by
          intro he
          exact hc (he ▸ List.elem_eq_true_of_mem hk)
        have hnm : m.targetKey ∉ acc.2 := fun hmm => hc (List.elem_eq_true_of_mem hmm)
        rw [show mappingStep cfg acc m =
            (jsSet acc.1 m.targetKey v, m.targetKey :: acc.2) by
          simp [mappingStep, hp, hnm]]
        rw [ih _ k (List.mem_cons_of_mem _ hk)]
        exact jsLookup_jsSet_ne _ _ _ _ hne

theorem mappingFold_first (cfg : JsObj) :
    ∀ (maps : List ConfigMapping) (acc : JsObj × List String) (k : String),
      k ∉ acc.2 →
      jsLookup (maps.foldl (mappingStep cfg) acc).1 k =
        orDefined
          ((maps.filterMap (fun m =>
            if m.targetKey = k then m.parse (jsLookup cfg m.configKey) else none)).head?)
          (jsLookup acc.1 k) := by
  intro maps
  induction maps with
  | nil => intro acc k _; simp [orDefined]
  | cons m rest ih =>
    intro acc k hk
    rw [List.foldl_cons, List.filterMap_cons]
    by_cases ht : m.targetKey = k
    · cases hp : m.parse (jsLookup cfg m.configKey) with
      | none =>
        rw [show mappingStep cfg acc m = acc by simp [mappingStep, hp]]
        simp only [ht, if_pos, hp]
        exact ih acc k hk
      | some v =>
        by_cases hc : acc.2.contains m.targetKey
        · exact absurd (ht ▸ List.mem_of_elem_eq_true hc) hk
        · have hnm : m.targetKey ∉ acc.2 := fun hmm => hc (List.elem_eq_true_of_mem hmm)
          rw [show mappingStep cfg acc m =
              (jsSet acc.1 m.targetKey v, m.targetKey :: acc.2) by
            simp [mappingStep, hp, hnm]]
          have hmem : k ∈ (jsSet acc.1 m.targetKey v, m.targetKey :: acc.2).2 := by
            simp [ht]
          rw [mappingFold_populated cfg rest _ k hmem]
          simp only [ht, if_pos, hp]
          simp [orDefined, ht ▸ jsLookup_jsSet_self acc.1 m.targetKey v]
    · have hdrop : (if m.targetKey = k then m.parse (jsLookup cfg m.configKey) else none) =
          none := by simp [ht]
      rw [hdrop]
      cases hp : m.parse (jsLookup cfg m.configKey) with
      | none =>
        rw [show mappingStep cfg acc m = acc by simp [mappingStep, hp]]
        simpa using ih acc k hk
      | some v =>
        by_cases hc : acc.2.contains m.targetKey
        · rw [show mappingStep cfg acc m = acc by
            simp [mappingStep, hp, List.mem_of_elem_eq_true hc]]
          simpa using ih acc k hk
        · have hnm : m.targetKey ∉ acc.2 := fun hmm => hc (List.elem_eq_true_of_mem hmm)
          rw [show mappingStep cfg acc m =
              (jsSet acc.1 m.targetKey v, m.targetKey :: acc.2) by
            simp [mappingStep, hp, hnm]]
          have hk' : k ∉ (jsSet acc.1 m.targetKey v, m.targetKey :: acc.2).2 := by
            simp only [List.mem_cons, not_or]
            exact ⟨fun he => ht he.symm, hk⟩
          rw [ih _ k hk']
          rw [jsLookup_jsSet_ne _ _ _ _ ht]

theorem applyAdhesion_lookup_ne (cfg s : JsObj) (k : String)
    (h : k ≠ "adhesion_type") :
    jsLookup (applyAdhesionFromConfig cfg s) k = jsLookup s k := by
  unfold applyAdhesionFromConfig
  dsimp only
  split_ifs <;>
    first
      | rfl
      | exact jsLookup_jsSet_ne _ _ _ _ (Ne.symm h)

theorem applySpeeds_lookup_ne (cfg s : JsObj) (k : String) (h : k ≠ "speeds") :
    jsLookup (applySpeedsFromConfig cfg s) k = jsLookup s k := by
  unfold applySpeedsFromConfig
  dsimp only
  split
  · exact jsLookup_jsSet_ne _ _ _ _ (Ne.symm h)
  · rfl

theorem mergeRemaining_preserves (cfg : JsObj) :
    ∀ (s : JsObj) (k : String) (v : JValue), jsLookup s k = some v →
      jsLookup (mergeRemainingConfig cfg s) k = some v := by
  unfold mergeRemainingConfig
  induction cfg with
  | nil => intro s k v h; exact h
  | cons p rest ih =>
    intro s k v h
    rw [List.foldl_cons]
    by_cases h1 : CONSUMED_CONFIG_KEYS.contains p.1
    · rw [if_pos h1] at *
      exact ih s k v h
    · rw [if_neg h1]
      by_cases h2 : ALLOWED_EXTRA_CONFIG_KEYS.contains p.1
      · simp only [h2, not_true, if_false, if_neg]
        by_cases h3 : (jsLookup s p.1).isSome
        · rw [if_pos h3]
          exact ih s k v h
        · rw [if_neg h3]
          have hne : p.1 ≠ k := by
            intro he
            rw [he, h] at h3
            exact h3 rfl
          exact ih _ k v (by rw [jsLookup_jsSet_ne _ _ _ _ hne]; exact h)
      · rw [if_pos h2]
        exact ih s k v h

/-- C6: when any mapping targeting canonical key `k` parses a non-null
value, `mapConfigToSettings` assigns `k` the value of the first such
mapping in declaration order of `GLOBAL_PROCESS_MAPPINGS`, skipping every
later mapping to `k` regardless of its presence or value. -/
theorem C6_first_win (config baseSettings : JsObj) (k : String) (v : JValue)
    (hk : k ∈ MAPPING_TARGET_KEYS)
    (hv : firstWinValue config k = some v) :
    jsLookup (mapConfigToSettings config baseSettings) k = some v := by
  have hka : k ≠ "adhesion_type" ∧ k ≠ "speeds" := by
    have hall : ∀ x ∈ MAPPING_TARGET_KEYS, x ≠ "adhesion_type" ∧ x ≠ "speeds" := by
      decide
    exact hall k hk
  unfold mapConfigToSettings
  apply mergeRemaining_preserves
  rw [applySpeeds_lookup_ne _ _ _ hka.2, applyAdhesion_lookup_ne _ _ _ hka.1]
  rw [mappingFold_first (normalizeConfigEntries config) GLOBAL_PROCESS_MAPPINGS
    (baseSettings, []) k (by simp)]
  unfold firstWinValue at hv
  rw [hv]
  rfl

/-- C6, witness: `nozzle_temperature` (first mapping to `nozzle_temp_c`)
wins over `nozzle_temperature_initial_layer` even though the latter is
present with the different value 230. -/
theorem C6_first_win_witness :
    jsLookup (mapConfigToSettings
        [("nozzle_temperature", .arr [.str "210"]),
         ("nozzle_temperature_initial_layer", .arr [.str "230"])] [])
      "nozzle_temp_c" = some (.num 210) := by
  exact C6_first_win _ _ _ _ (by decide) rfl

/-! ### C9 — bookkeeping groups -/

theorem setAddStr_mem (l : List String) (k a : String) :
    a ∈ setAddStr l k ↔ a ∈ l ∨ a = k := by
  unfold setAddStr
  by_cases h : l.contains k
  · rw [if_pos h]
    constructor
    · exact Or.inl
    · rintro (ha | rfl)
      · exact ha
      · exact List.mem_of_elem_eq_true h
  · rw [if_neg h]
    simp

theorem setAddStr_nodup (l : List String) (k : String) (h : l.Nodup) :
    (setAddStr l k).Nodup := by
  unfold setAddStr
  by_cases hc : l.contains k
  · rwa [if_pos hc]
  · rw [if_neg hc]
    have hk : k ∉ l := fun hm => hc (List.elem_eq_true_of_mem hm)
    simp [List.nodup_append, h, hk]

theorem dedupKeys_aux_mem (l : List String) :
    ∀ (acc : List String) (a : String),
      a ∈ l.foldl setAddStr acc ↔ a ∈ acc ∨ a ∈ l := by
  induction l with
  | nil => intro acc a; simp
  | cons x rest ih =>
    intro acc a
    rw [List.foldl_cons, ih]
    rw [setAddStr_mem]
    constructor
    · rintro ((ha | rfl) | ha)
      · exact Or.inl ha
      · exact Or.inr (List.mem_cons_self _ _)
      · exact Or.inr (List.mem_cons_of_mem _ ha)
    · rintro (ha | ha)
      · exact Or.inl (Or.inl ha)
      · rcases List.mem_cons.mp ha with rfl | ha
        · exact Or.inl (Or.inr rfl)
        · exact Or.inr ha

theorem dedupKeys_mem (l : List String) (a : String) :
    a ∈ dedupKeys l ↔ a ∈ l := by
  unfold dedupKeys
  rw [dedupKeys_aux_mem]
  simp

theorem dedupKeys_nodup (l : List String) : (dedupKeys l).Nodup := by
  have aux : ∀ (m : List String) (acc : List String), acc.Nodup →
      (m.foldl setAddStr acc).Nodup := by
    intro m
    induction m with
    | nil => intro acc h; exact h
    | cons x rest ih =>
      intro acc h
      rw [List.foldl_cons]
      exact ih _ (setAddStr_nodup _ _ h)
  exact aux l [] List.nodup_nil

theorem charListLe_total : ∀ a b : List Char,
    charListLe a b = true ∨ charListLe b a = true := by
  intro a
  induction a with
  | nil => intro b; exact Or.inl rfl
  | cons x xs ih =>
    intro b
    cases b with
    | nil => exact Or.inr rfl
    | cons y ys =>
      rcases lt_trichotomy x y with h | h | h
      · left
        simp [charListLe, h]
      · subst h
        rcases ih ys with h2 | h2
        · left
          simp [charListLe, h2]
        · right
          simp [charListLe, h2]
      · right
        simp [charListLe, h]

theorem charListLe_trans : ∀ a b c : List Char,
    charListLe a b = true → charListLe b c = true → charListLe a c = true := by
  intro a
  induction a with
  | nil => intro b c _ _; rfl
  | cons x xs ih =>
    intro b c hab hbc
    cases b with
    | nil => simp [charListLe] at hab
    | cons y ys =>
      cases c with
      | nil => simp [charListLe] at hbc
      | cons z zs =>
        by_cases hxy : x < y
        · by_cases hyz : y < z
          · simp [charListLe, lt_trans hxy hyz]
          · by_cases hyz2 : y = z
            · subst hyz2
              simp [charListLe, hxy]
            · simp [charListLe, hyz, hyz2] at hbc
        · by_cases hxy2 : x = y
          · subst hxy2
            simp [charListLe, hxy] at hab
            by_cases hyz : x < z
            · simp [charListLe, hyz]
            · by_cases hyz2 : x = z
              · subst hyz2
                simp [charListLe, hyz] at hbc ⊢
                exact ih ys zs hab hbc
              · simp [charListLe, hyz, hyz2] at hbc
          · simp [charListLe, hxy, hxy2] at hab

theorem charListLe_antisymm : ∀ a b : List Char,
    charListLe a b = true → charListLe b a = true → a = b := by
  intro a
  induction a with
  | nil =>
    intro b _ hba
    cases b with
    | nil => rfl
    | cons y ys => simp [charListLe] at hba
  | cons x xs ih =>
    intro b hab hba
    cases b with
    | nil => simp [charListLe] at hab
    | cons y ys =>
      by_cases hxy : x < y
      · by_cases hyx : y < x
        · exact absurd (lt_trans hxy hyx) (lt_irrefl x)
        · by_cases hyx2 : y = x
          · exact absurd (hyx2 ▸ hxy) (lt_irrefl x)
          · simp [charListLe, hyx, hyx2] at hba
      · by_cases hxy2 : x = y
        · subst hxy2
          simp [charListLe, hxy] at hab hba
          rw [ih ys hab hba]
        · simp [charListLe, hxy, hxy2] at hab

instance strLeIsTotal : IsTotal String (fun a b => strLe a b = true) :=
  ⟨fun a b => charListLe_total a.data b.data⟩

instance strLeIsTrans : IsTrans String (fun a b => strLe a b = true) :=
  ⟨fun a b c => charListLe_trans a.data b.data c.data⟩

instance strLeIsAntisymm : IsAntisymm String (fun a b => strLe a b = true) := by
  constructor
  intro a b h1 h2
  cases a with
  | mk da =>
    cases b with
    | mk db =>
      have := charListLe_antisymm da db h1 h2
      rw [this]

theorem insertionSort_eq_of_mem_eq (l₁ l₂ : List String)
    (h1 : l₁.Nodup) (h2 : l₂.Nodup) (hm : ∀ a, a ∈ l₁ ↔ a ∈ l₂) :
    l₁.insertionSort (fun a b => strLe a b = true) =
      l₂.insertionSort (fun a b => strLe a b = true) := by
  have hp : l₁.Perm l₂ := (List.perm_ext_iff_of_nodup h1 h2).mpr hm
  have hps : (l₁.insertionSort (fun a b => strLe a b = true)).Perm
      (l₂.insertionSort (fun a b => strLe a b = true)) :=
    ((List.perm_insertionSort _ l₁).trans hp).trans
      (List.perm_insertionSort _ l₂).symm
  exact List.eq_of_perm_of_sorted hps
    (List.sorted_insertionSort _ l₁) (List.sorted_insertionSort _ l₂)

theorem formatGroup_eq_sortedJoin (l target : List String) (h : l.Nodup)
    (hm : ∀ a, a ∈ l ↔ a ∈ target) :
    formatDifferentSettingsGroup l = sortedJoin target := by
  unfold formatDifferentSettingsGroup sortedJoin
  by_cases hl : l = []
  · have ht : target = [] := by
      rw [List.eq_nil_iff_forall_not_mem]
      intro a ha
      exact (List.eq_nil_iff_forall_not_mem.mp hl) a ((hm a).mpr ha)
    simp [hl, ht]
  · have ht : target ≠ [] := by
      intro hnil
      obtain ⟨a, ha⟩ := List.exists_mem_of_ne_nil l hl
      exact (List.eq_nil_iff_forall_not_mem.mp hnil) a ((hm a).mp ha)
    rw [if_neg (by simpa [List.isEmpty_iff] using hl),
      if_neg (by simpa [List.isEmpty_iff] using ht)]
    congr 1
    exact insertionSort_eq_of_mem_eq l (dedupKeys target) h (dedupKeys_nodup _)
      (fun a => (hm a).trans (dedupKeys_mem _ _).symm)

theorem resolveDifferentSettingsGroupIndex_lt (k : String) (g : DiffGroups) :
    resolveDifferentSettingsGroupIndex k g < 3 := by
  unfold resolveDifferentSettingsGroupIndex existingGroupIndex
  split_ifs <;> simp

theorem groupGet_addKey (m : DiffGroups) (j : Nat) (hj : j < 3) (k : String)
    (i : Nat) (hi : i < 3) :
    groupGet (addKeyToGroup m j k) i =
      if i = j then setAddStr (groupGet m i) k else groupGet m i := by
  interval_cases i <;> interval_cases j <;> simp [addKeyToGroup, groupGet]

theorem dsFold_mem (base updated : JsObj) (groups : DiffGroups) :
    ∀ (touched : List String) (m : DiffGroups) (i : Nat), i < 3 →
      ∀ a, a ∈ groupGet (touched.foldl (differentSettingsStep base updated groups) m) i ↔
        a ∈ groupGet m i ∨ (a ∈ touched ∧ a ≠ "different_settings_to_system" ∧
          areConfigValuesEqual (jsLookup base a) (jsLookup updated a) = false ∧
          resolveDifferentSettingsGroupIndex a groups = i) := by
  intro touched
  induction touched with
  | nil => intro m i _ a; simp
  | cons k rest ih =>
    intro m i hi a
    rw [List.foldl_cons]
    by_cases h1 : k = "different_settings_to_system"
    · rw [show differentSettingsStep base updated groups m k = m by
        simp [differentSettingsStep, h1]]
      rw [ih m i hi a]
      constructor
      · rintro (ha | ha)
        · exact Or.inl ha
        · exact Or.inr ⟨List.mem_cons_of_mem _ ha.1, ha.2⟩
      · rintro (ha | ⟨hmem, hne, heq, hres⟩)
        · exact Or.inl ha
        · rcases List.mem_cons.mp hmem with rfl | hmem2
          · exact absurd h1 hne
          · exact Or.inr ⟨hmem2, hne, heq, hres⟩
    · by_cases h2 : areConfigValuesEqual (jsLookup base k) (jsLookup updated k)
      · rw [show differentSettingsStep base updated groups m k = m by
          simp [differentSettingsStep, h1, h2]]
        rw [ih m i hi a]
        constructor
        · rintro (ha | ha)
          · exact Or.inl ha
          · exact Or.inr ⟨List.mem_cons_of_mem _ ha.1, ha.2⟩
        · rintro (ha | ⟨hmem, hne, heq, hres⟩)
          · exact Or.inl ha
          · rcases List.mem_cons.mp hmem with rfl | hmem2
            · rw [h2] at heq
              exact absurd heq (by simp)
            · exact Or.inr ⟨hmem2, hne, heq, hres⟩
      · rw [show differentSettingsStep base updated groups m k =
            addKeyToGroup m (resolveDifferentSettingsGroupIndex k groups) k by
          simp [differentSettingsStep, h1, h2]]
        rw [ih _ i hi a]
        rw [groupGet_addKey m _ (resolveDifferentSettingsGroupIndex_lt k groups) k i hi]
        by_cases hij : i = resolveDifferentSettingsGroupIndex k groups
        · rw [if_pos hij, setAddStr_mem]
          constructor
          · rintro ((ha | rfl) | ha)
            · exact Or.inl ha
            · exact Or.inr ⟨List.mem_cons_self _ _, h1,
                Bool.eq_false_iff.mpr h2, hij.symm⟩
            · exact Or.inr ⟨List.mem_cons_of_mem _ ha.1, ha.2⟩
          · rintro (ha | ⟨hmem, hne, heq, hres⟩)
            · exact Or.inl (Or.inl ha)
            · rcases List.mem_cons.mp hmem with rfl | hmem2
              · exact Or.inl (Or.inr rfl)
              · exact Or.inr ⟨hmem2, hne, heq, hres⟩
        · rw [if_neg hij]
          constructor
          · rintro (ha | ha)
            · exact Or.inl ha
            · exact Or.inr ⟨List.mem_cons_of_mem _ ha.1, ha.2⟩
          · rintro (ha | ⟨hmem, hne, heq, hres⟩)
            · exact Or.inl ha
            · rcases List.mem_cons.mp hmem with rfl | hmem2
              · exact absurd hres.symm hij
              · exact Or.inr ⟨hmem2, hne, heq, hres⟩

theorem dsFold_nodup (base updated : JsObj) (groups : DiffGroups) :
    ∀ (touched : List String) (m : DiffGroups) (i : Nat), i < 3 →
      (groupGet m i).Nodup →
      (groupGet (touched.foldl (differentSettingsStep base updated groups) m) i).Nodup := by
  intro touched
  induction touched with
  | nil => intro m i _ h; exact h
  | cons k rest ih =>
    intro m i hi h
    rw [List.foldl_cons]
    apply ih _ i hi
    unfold differentSettingsStep
    split_ifs with h1 h2
    · exact h
    · exact h
    · rw [groupGet_addKey m _ (resolveDifferentSettingsGroupIndex_lt k groups) k i hi]
      split_ifs with hij
      · exact setAddStr_nodup _ _ h
      · exact h

/-- C9: the rewritten bookkeeping field is, groupwise, the lexicographically
sorted semicolon-join of the pre-existing keys of the group together with
the touched keys whose serialized value changed that resolve to it (empty
groups serialize to the empty string), and the filament group additionally
receives the `compatible_printers` sentinel whenever it ends up non-empty. -/
theorem C9_bookkeeping_groups (existing : Option JValue) (base updated : JsObj)
    (touched : List String)
    (h : "different_settings_to_system" ∉ touched) :
    updateDifferentSettingsToSystem existing base updated touched =
      [sortedJoin ((parseDifferentSettingsToSystem existing).print ++
          changedTouchedKeys base updated (parseDifferentSettingsToSystem existing) touched 0),
       sortedJoin ((parseDifferentSettingsToSystem existing).filament ++
          changedTouchedKeys base updated (parseDifferentSettingsToSystem existing) touched 1 ++
          (if (parseDifferentSettingsToSystem existing).filament ++
              changedTouchedKeys base updated (parseDifferentSettingsToSystem existing) touched 1 = []
           then [] else ["compatible_printers"])),
       sortedJoin ((parseDifferentSettingsToSystem existing).printer ++
          changedTouchedKeys base updated (parseDifferentSettingsToSystem existing) touched 2)] := by
  set pre := parseDifferentSettingsToSystem existing with hpre
  set merged0 : DiffGroups :=
    ⟨dedupKeys pre.print, dedupKeys pre.filament, dedupKeys pre.printer⟩ with hm0
  set M := touched.foldl (differentSettingsStep base updated pre) merged0 with hM
  have hne_of_mem : ∀ a ∈ touched, a ≠ "different_settings_to_system" :=
    fun a ha he => h (he ▸ ha)
  have hmem0 : ∀ a, a ∈ M.print ↔ a ∈ pre.print ++ changedTouchedKeys base updated pre touched 0 := by
    intro a
    have hd := dsFold_mem base updated pre touched merged0 0 (by norm_num) a
    rw [hM]
    rw [show groupGet (touched.foldl (differentSettingsStep base updated pre) merged0) 0 =
        (touched.foldl (differentSettingsStep base updated pre) merged0).print from rfl] at hd
    rw [hd]
    unfold changedTouchedKeys
    rw [List.mem_append, List.mem_filter]
    constructor
    · rintro (ha | ⟨hmem, _, heq, hres⟩)
      · exact Or.inl ((dedupKeys_mem _ _).mp ha)
      · exact Or.inr ⟨hmem, by simp [heq, hres]⟩
    · rintro (ha | ⟨hmem, hpred⟩)
      · exact Or.inl ((dedupKeys_mem _ _).mpr ha)
      · simp only [Bool.and_eq_true, Bool.not_eq_true', decide_eq_true_eq] at hpred
        exact Or.inr ⟨hmem, hne_of_mem a hmem, hpred.1, hpred.2⟩
  have hmem1 : ∀ a, a ∈ M.filament ↔
      a ∈ pre.filament ++ changedTouchedKeys base updated pre touched 1 := by
    intro a
    have hd := dsFold_mem base updated pre touched merged0 1 (by norm_num) a
    rw [hM]
    rw [show groupGet (touched.foldl (differentSettingsStep base updated pre) merged0) 1 =
        (touched.foldl (differentSettingsStep base updated pre) merged0).filament from rfl] at hd
    rw [hd]
    unfold changedTouchedKeys
    rw [List.mem_append, List.mem_filter]
    constructor
    · rintro (ha | ⟨hmem, _, heq, hres⟩)
      · exact Or.inl ((dedupKeys_mem _ _).mp ha)
      · exact Or.inr ⟨hmem, by simp [heq, hres]⟩
    · rintro (ha | ⟨hmem, hpred⟩)
      · exact Or.inl ((dedupKeys_mem _ _).mpr ha)
      · simp only [Bool.and_eq_true, Bool.not_eq_true', decide_eq_true_eq] at hpred
        exact Or.inr ⟨hmem, hne_of_mem a hmem, hpred.1, hpred.2⟩
  have hmem2 : ∀ a, a ∈ M.printer ↔
      a ∈ pre.printer ++ changedTouchedKeys base updated pre touched 2 := by
    intro a
    have hd := dsFold_mem base updated pre touched merged0 2 (by norm_num) a
    rw [hM]
    rw [show groupGet (touched.foldl (differentSettingsStep base updated pre) merged0) 2 =
        (touched.foldl (differentSettingsStep base updated pre) merged0).printer from rfl] at hd
    rw [hd]
    unfold changedTouchedKeys
    rw [List.mem_append, List.mem_filter]
    constructor
    · rintro (ha | ⟨hmem, _, heq, hres⟩)
      · exact Or.inl ((dedupKeys_mem _ _).mp ha)
      · exact Or.inr ⟨hmem, by simp [heq, hres]⟩
    · rintro (ha | ⟨hmem, hpred⟩)
      · exact Or.inl ((dedupKeys_mem _ _).mpr ha)
      · simp only [Bool.and_eq_true, Bool.not_eq_true', decide_eq_true_eq] at hpred
        exact Or.inr ⟨hmem, hne_of_mem a hmem, hpred.1, hpred.2⟩
  have hnod0 : M.print.Nodup := by
    have := dsFold_nodup base updated pre touched merged0 0 (by norm_num)
      (by simpa [hm0, groupGet] using dedupKeys_nodup pre.print)
    simpa [hM, groupGet] using this
  have hnod1 : M.filament.Nodup := by
    have := dsFold_nodup base updated pre touched merged0 1 (by norm_num)
      (by simpa [hm0, groupGet] using dedupKeys_nodup pre.filament)
    simpa [hM, groupGet] using this
  have hnod2 : M.printer.Nodup := by
    have := dsFold_nodup base updated pre touched merged0 2 (by norm_num)
      (by simpa [hm0, groupGet] using dedupKeys_nodup pre.printer)
    simpa [hM, groupGet] using this
  have hstep : updateDifferentSettingsToSystem existing base updated touched =
      [formatDifferentSettingsGroup
        (if M.filament.length > 0 then
          { M with filament := setAddStr M.filament "compatible_printers" }
         else M).print,
       formatDifferentSettingsGroup
        (if M.filament.length > 0 then
          { M with filament := setAddStr M.filament "compatible_printers" }
         else M).filament,
       formatDifferentSettingsGroup
        (if M.filament.length > 0 then
          { M with filament := setAddStr M.filament "compatible_printers" }
         else M).printer] := by
    rw [updateDifferentSettingsToSystem]
  rw [hstep]
  by_cases hfl : M.filament.length > 0
  · have hcore_ne : pre.filament ++ changedTouchedKeys base updated pre touched 1 ≠ [] := by
      obtain ⟨a, ha⟩ := List.exists_mem_of_ne_nil M.filament
        (by intro hnil; rw [hnil] at hfl; simp at hfl)
      intro hnil
      rw [List.eq_nil_iff_forall_not_mem] at hnil
      exact hnil a ((hmem1 a).mp ha)
    rw [if_pos hfl]
    rw [if_neg hcore_ne]
    congr 1
    · exact formatGroup_eq_sortedJoin _ _ hnod0 hmem0
    congr 1
    · apply formatGroup_eq_sortedJoin _ _ (setAddStr_nodup _ _ hnod1)
      intro a
      rw [setAddStr_mem]
      constructor
      · rintro (ha | rfl)
        · exact List.mem_append_left _ ((hmem1 a).mp ha)
        · exact List.mem_append_right _ (List.mem_singleton_self _)
      · intro ha
        rcases List.mem_append.mp ha with ha | ha
        · exact Or.inl ((hmem1 a).mpr ha)
        · exact Or.inr (List.mem_singleton.mp ha)
    congr 1
    exact formatGroup_eq_sortedJoin _ _ hnod2 hmem2
  · have hfe : M.filament = [] := by
      cases hml : M.filament with
      | nil => rfl
      | cons x xs => rw [hml] at hfl; simp at hfl
    have hcore_nil : pre.filament ++ changedTouchedKeys base updated pre touched 1 = [] := by
      rw [List.eq_nil_iff_forall_not_mem]
      intro a ha
      have := (hmem1 a).mpr ha
      rw [hfe] at this
      simp at this
    rw [if_neg hfl]
    rw [if_pos hcore_nil]
    congr 1
    · exact formatGroup_eq_sortedJoin _ _ hnod0 hmem0
    congr 1
    · apply formatGroup_eq_sortedJoin _ _ hnod1
      intro a
      rw [hcore_nil]
      rw [hfe]
      simp
    congr 1
    exact formatGroup_eq_sortedJoin _ _ hnod2 hmem2

/-- C9, witness: with `wall_loops` pre-existing in the print group and
touched keys `layer_height` (print) and `nozzle_temperature` (filament)
whose values changed, the groups come out sorted and semicolon-joined with
the `compatible_printers` sentinel added to the non-empty filament group
and the untouched printer group empty. -/
theorem C9_bookkeeping_groups_witness :
    updateDifferentSettingsToSystem (some (.arr [.str "wall_loops", .str "", .str ""]))
      [("layer_height", .str "0.2"), ("nozzle_temperature", .arr [.str "210"])]
      [("layer_height", .str "0.3"), ("nozzle_temperature", .arr [.str "230"])]
      ["layer_height", "nozzle_temperature"] =
      ["layer_height;wall_loops", "compatible_printers;nozzle_temperature", ""] := by
  have h := C9_bookkeeping_groups (some (.arr [.str "wall_loops", .str "", .str ""]))
    [("layer_height", .str "0.2"), ("nozzle_temperature", .arr [.str "210"])]
    [("layer_height", .str "0.3"), ("nozzle_temperature", .arr [.str "230"])]
    ["layer_height", "nozzle_temperature"] (by decide)
  rw [h]
  rfl
